import Mathlib

/-!
Verification of the ALM library (actuarial liabilities, fixed-income assets,
block-of-business orchestration) against its specification.

The Python source is shallowly embedded over exact rational arithmetic:
pure functions become Lean functions on `ℚ`, fallible code returns
`Option`/`Except`, and iterative loops become structural recursions or
folds that mirror the loop bodies.  File/market-data collaborators
(`get_spread`) are abstracted as function parameters, as the spec treats
them as external interfaces.
-/

set_option maxHeartbeats 1000000

/-- Sum of a function mapped over `List.range n` equals the `Finset.range` sum. -/
lemma sum_map_range (f : ℕ → ℚ) (n : ℕ) :
    ((List.range n).map f).sum = ∑ i in Finset.range n, f i := by
  induction n with
  | zero => simp
  | succ n ih =>
    rw [List.range_succ, List.map_append, List.sum_append, Finset.sum_range_succ, ih]
    simp

/-- Left fold of multiplication over `List.range n` starting at `a` equals
`a` times the `Finset.range` product. -/
lemma foldl_mul_range (f : ℕ → ℚ) (n : ℕ) (a : ℚ) :
    (List.range n).foldl (fun s k => s * f k) a = a * ∏ k in Finset.range n, f k := by
  induction n generalizing a with
  | zero => simp
  | succ n ih =>
    rw [List.range_succ, List.foldl_append, ih, Finset.prod_range_succ]
    simp [mul_assoc]

/-!
Survival model (`src/alm/liability.py`, `_survival_prob`).

Embedding note: Python's `int(t)` truncates toward zero; for the `t ≥ 0`
regime covered by the spec this is `⌊t⌋`, modelled as `(Int.floor t).toNat`.
The `for k in range(min(year, len(qx)))` accumulation loop is modelled as a
left fold over `List.range`.
-/

/-- Probability of surviving from time 0 to `t` years (UDD within each year),
from `_survival_prob` in `liability.py`. -/
def survivalProb (qx : List ℚ) (t : ℚ) : ℚ :=
  let year : ℕ := (Int.floor t).toNat
  let frac : ℚ := t - (year : ℚ)
  let sp : ℚ := (List.range (min year qx.length)).foldl (fun s k => s * (1 - qx.getD k 0)) 1
  if 0 < frac ∧ year < qx.length then sp * (1 - frac * qx.getD year 0) else sp

lemma survivalProb_eq (qx : List ℚ) (t : ℚ) :
    survivalProb qx t =
      (∏ k in Finset.range (min (Int.floor t).toNat qx.length), (1 - qx.getD k 0)) *
        (if 0 < t - (((Int.floor t).toNat : ℕ) : ℚ) ∧ (Int.floor t).toNat < qx.length
          then 1 - (t - (((Int.floor t).toNat : ℕ) : ℚ)) * qx.getD (Int.floor t).toNat 0
          else 1) := by
  unfold survivalProb
  simp only [foldl_mul_range, one_mul]
  split_ifs with h
  · rfl
  · rw [mul_one]

lemma floor_toNat_natCast (n : ℕ) : (Int.floor ((n : ℚ))).toNat = n := by
  rw [Int.floor_natCast]
  exact Int.toNat_natCast n

/-- C1: `_survival_prob(qx, t)` equals the product of `(1 - qx[k])` for
`k < min(⌊t⌋, len qx)`, further multiplied by `(1 - frac * qx[⌊t⌋])` exactly
when the fractional part is positive and `⌊t⌋ < len qx`; consequently
`S(0) = 1`, `S` is constant (the full product) for `t` beyond `len qx`,
and at integer `t ≤ len qx` it is the product of `(1 - qx[k])` for `k < t`. -/
theorem survival_prob_spec (qx : List ℚ) (t : ℚ) (_hnn : 0 ≤ t) :
    survivalProb qx t =
      (∏ k in Finset.range (min (Int.floor t).toNat qx.length), (1 - qx.getD k 0)) *
        (if 0 < t - (((Int.floor t).toNat : ℕ) : ℚ) ∧ (Int.floor t).toNat < qx.length
          then 1 - (t - (((Int.floor t).toNat : ℕ) : ℚ)) * qx.getD (Int.floor t).toNat 0
          else 1) ∧
    survivalProb qx 0 = 1 ∧
    ((qx.length : ℚ) ≤ t →
      survivalProb qx t = ∏ k in Finset.range qx.length, (1 - qx.getD k 0)) ∧
    (∀ n : ℕ, n ≤ qx.length →
      survivalProb qx (n : ℚ) = ∏ k in Finset.range n, (1 - qx.getD k 0)) := by
  refine ⟨survivalProb_eq qx t, ?_, ?_, ?_⟩
  · rw [survivalProb_eq]
    norm_num
  · intro hlen
    rw [survivalProb_eq]
    have hfloor : (qx.length : ℤ) ≤ Int.floor t := Int.le_floor.mpr (by exact_mod_cast hlen)
    have hge : qx.length ≤ (Int.floor t).toNat := by
      omega
    have hmin : min (Int.floor t).toNat qx.length = qx.length := min_eq_right hge
    rw [hmin]
    have hnotlt : ¬ (Int.floor t).toNat < qx.length := not_lt.mpr hge
    simp [hnotlt]
  · intro n hn
    rw [survivalProb_eq]
    rw [floor_toNat_natCast]
    have hmin : min n qx.length = n := min_eq_left hn
    rw [hmin]
    simp

/-- Concrete instantiation of `survival_prob_spec` at `qx = [1/10, 1/5]`,
`t = 3/2`. -/
theorem survival_prob_spec_witness :
    (0 : ℚ) ≤ 3/2 ∧
    (survivalProb [1/10, 1/5] (3/2) =
      (∏ k in Finset.range (min (Int.floor (3/2 : ℚ)).toNat ([1/10, 1/5] : List ℚ).length),
          (1 - ([1/10, 1/5] : List ℚ).getD k 0)) *
        (if 0 < (3/2 : ℚ) - (((Int.floor (3/2 : ℚ)).toNat : ℕ) : ℚ) ∧
            (Int.floor (3/2 : ℚ)).toNat < ([1/10, 1/5] : List ℚ).length
          then 1 - ((3/2 : ℚ) - (((Int.floor (3/2 : ℚ)).toNat : ℕ) : ℚ)) *
            ([1/10, 1/5] : List ℚ).getD (Int.floor (3/2 : ℚ)).toNat 0
          else 1) ∧
    survivalProb [1/10, 1/5] 0 = 1 ∧
    ((([1/10, 1/5] : List ℚ).length : ℚ) ≤ 3/2 →
      survivalProb [1/10, 1/5] (3/2) =
        ∏ k in Finset.range ([1/10, 1/5] : List ℚ).length,
          (1 - ([1/10, 1/5] : List ℚ).getD k 0)) ∧
    (∀ n : ℕ, n ≤ ([1/10, 1/5] : List ℚ).length →
      survivalProb [1/10, 1/5] (n : ℚ) =
        ∏ k in Finset.range n, (1 - ([1/10, 1/5] : List ℚ).getD k 0))) :=
  ⟨by norm_num, survival_prob_spec [1/10, 1/5] (3/2) (by norm_num)⟩

/-!
SPIA – Single Premium Immediate Annuity (`src/alm/liability.py`).

Embedding note: the source rows also carry a `year` column rounded to six
decimal places for display; it is not consumed by any computation modelled
here, so the row type keeps only the computational columns.
-/

structure SPIA where
  premium : ℚ
  annual_payout : ℚ
  qx : List ℚ
  frequency : ℕ := 12
  certain_period : ℕ := 0
  age : Option ℕ := none

structure SPIARow where
  period : ℕ
  payout : ℚ
  survival_prob : ℚ
  expected_payout : ℚ

/-- Expected liability cashflow schedule of a SPIA, one row per period
`t = 1..len(qx)*frequency`, from `SPIA.cashflows`. -/
def SPIA.cashflows (p : SPIA) : List SPIARow :=
  (List.range (p.qx.length * p.frequency)).map (fun i =>
    let t : ℕ := i + 1
    let pmt : ℚ := p.annual_payout / (p.frequency : ℚ)
    let yr : ℚ := (t : ℚ) / (p.frequency : ℚ)
    let sp := survivalProb p.qx yr
    { period := t, payout := pmt, survival_prob := sp,
      expected_payout := if yr ≤ (p.certain_period : ℚ) then pmt else pmt * sp })

/-- PV of expected payouts, from `SPIA.present_value`. -/
def SPIA.present_value (p : SPIA) (discount_rate : ℚ) : ℚ :=
  let r := discount_rate / (p.frequency : ℚ)
  ((p.cashflows).map (fun row => row.expected_payout / (1 + r) ^ row.period)).sum

/-- Macaulay duration in years, from `SPIA.duration`. -/
def SPIA.duration (p : SPIA) (discount_rate : ℚ) : ℚ :=
  let r := discount_rate / (p.frequency : ℚ)
  let pv := p.present_value discount_rate
  ((p.cashflows).map (fun row =>
    ((row.period : ℚ) / (p.frequency : ℚ)) * row.expected_payout / (1 + r) ^ row.period)).sum / pv

/-- Convexity in years squared, from `SPIA.convexity`. -/
def SPIA.convexity (p : SPIA) (discount_rate : ℚ) : ℚ :=
  let r := discount_rate / (p.frequency : ℚ)
  let pv := p.present_value discount_rate
  ((p.cashflows).map (fun row =>
    (row.period : ℚ) * ((row.period : ℚ) + 1) * row.expected_payout /
      (1 + r) ^ (row.period + 2))).sum / (pv * (p.frequency : ℚ) ^ 2)

/-- Actuarially fair constructor, from `SPIA.from_payout`: builds a
temporary SPIA with zero premium, prices it, and rebuilds with that
premium. -/
def SPIA.from_payout (annual_payout : ℚ) (qx : List ℚ) (discount_rate : ℚ)
    (frequency : ℕ := 12) (certain_period : ℕ := 0) (age : Option ℕ := none) : SPIA :=
  let temp : SPIA :=
    { premium := 0, annual_payout := annual_payout, qx := qx, frequency := frequency,
      certain_period := certain_period, age := age }
  { premium := temp.present_value discount_rate, annual_payout := annual_payout, qx := qx,
    frequency := frequency, certain_period := certain_period, age := age }

/-- C9: the SPIA returned by `from_payout` has premium equal to its own
`present_value` at the construction discount rate, and all other fields
equal the constructor arguments. -/
theorem spia_from_payout_round_trip (annual_payout : ℚ) (qx : List ℚ)
    (discount_rate : ℚ) (frequency certain_period : ℕ) (age : Option ℕ) :
    (SPIA.from_payout annual_payout qx discount_rate frequency certain_period age).premium =
      (SPIA.from_payout annual_payout qx discount_rate frequency certain_period
        age).present_value discount_rate ∧
    (SPIA.from_payout annual_payout qx discount_rate frequency certain_period
      age).annual_payout = annual_payout ∧
    (SPIA.from_payout annual_payout qx discount_rate frequency certain_period age).qx = qx ∧
    (SPIA.from_payout annual_payout qx discount_rate frequency certain_period
      age).frequency = frequency ∧
    (SPIA.from_payout annual_payout qx discount_rate frequency certain_period
      age).certain_period = certain_period ∧
    (SPIA.from_payout annual_payout qx discount_rate frequency certain_period age).age = age := by
  refine ⟨?_, rfl, rfl, rfl, rfl, rfl⟩
  rfl

/-!
WL – Whole Life and Term – Term Life (`src/alm/liability.py`).  Both build
the same row shape; Term caps the horizon at `term * frequency` periods.
-/

structure WL where
  face_value : ℚ
  annual_premium : ℚ
  qx : List ℚ
  frequency : ℕ := 12
  age : Option ℕ := none

structure LifeRow where
  period : ℕ
  survival_prob : ℚ
  expected_premium : ℚ
  expected_benefit : ℚ
  net_cashflow : ℚ

/-- One WL/Term schedule row for period `t` (shared loop body of
`WL.cashflows` and `Term.cashflows`). -/
def lifeRow (face_value annual_premium : ℚ) (qx : List ℚ) (frequency : ℕ) (t : ℕ) : LifeRow :=
  let pmt : ℚ := annual_premium / (frequency : ℚ)
  let sp_start := survivalProb qx (((t : ℚ) - 1) / (frequency : ℚ))
  let sp_end := survivalProb qx ((t : ℚ) / (frequency : ℚ))
  let death_prob := sp_start - sp_end
  { period := t, survival_prob := sp_end,
    expected_premium := pmt * sp_start,
    expected_benefit := face_value * death_prob,
    net_cashflow := face_value * death_prob - pmt * sp_start }

/-- Expected liability cashflows of a WL policy, from `WL.cashflows`. -/
def WL.cashflows (p : WL) : List LifeRow :=
  (List.range (p.qx.length * p.frequency)).map (fun i =>
    lifeRow p.face_value p.annual_premium p.qx p.frequency (i + 1))

/-- PV of net liability cashflows, from `WL.present_value`. -/
def WL.present_value (p : WL) (discount_rate : ℚ) : ℚ :=
  let r := discount_rate / (p.frequency : ℚ)
  ((p.cashflows).map (fun row => row.net_cashflow / (1 + r) ^ row.period)).sum

/-- Macaulay duration of net liability in years, from `WL.duration`. -/
def WL.duration (p : WL) (discount_rate : ℚ) : ℚ :=
  let r := discount_rate / (p.frequency : ℚ)
  let pv := p.present_value discount_rate
  ((p.cashflows).map (fun row =>
    ((row.period : ℚ) / (p.frequency : ℚ)) * row.net_cashflow / (1 + r) ^ row.period)).sum / pv

/-- Convexity of net liability, from `WL.convexity`. -/
def WL.convexity (p : WL) (discount_rate : ℚ) : ℚ :=
  let r := discount_rate / (p.frequency : ℚ)
  let pv := p.present_value discount_rate
  ((p.cashflows).map (fun row =>
    (row.period : ℚ) * ((row.period : ℚ) + 1) * row.net_cashflow /
      (1 + r) ^ (row.period + 2))).sum / (pv * (p.frequency : ℚ) ^ 2)

structure Term where
  face_value : ℚ
  annual_premium : ℚ
  term : ℕ
  qx : List ℚ
  frequency : ℕ := 12
  age : Option ℕ := none

/-- Expected liability cashflows over the policy term, from `Term.cashflows`. -/
def Term.cashflows (p : Term) : List LifeRow :=
  (List.range (p.term * p.frequency)).map (fun i =>
    lifeRow p.face_value p.annual_premium p.qx p.frequency (i + 1))

/-- PV of net liability cashflows, from `Term.present_value`. -/
def Term.present_value (p : Term) (discount_rate : ℚ) : ℚ :=
  let r := discount_rate / (p.frequency : ℚ)
  ((p.cashflows).map (fun row => row.net_cashflow / (1 + r) ^ row.period)).sum

/-- Macaulay duration of net liability in years, from `Term.duration`. -/
def Term.duration (p : Term) (discount_rate : ℚ) : ℚ :=
  let r := discount_rate / (p.frequency : ℚ)
  let pv := p.present_value discount_rate
  ((p.cashflows).map (fun row =>
    ((row.period : ℚ) / (p.frequency : ℚ)) * row.net_cashflow / (1 + r) ^ row.period)).sum / pv

/-- Convexity of net liability, from `Term.convexity`. -/
def Term.convexity (p : Term) (discount_rate : ℚ) : ℚ :=
  let r := discount_rate / (p.frequency : ℚ)
  let pv := p.present_value discount_rate
  ((p.cashflows).map (fun row =>
    (row.period : ℚ) * ((row.period : ℚ) + 1) * row.net_cashflow /
      (1 + r) ^ (row.period + 2))).sum / (pv * (p.frequency : ℚ) ^ 2)

/-!
FIA – Fixed Indexed Annuity (`src/alm/liability.py`).

The account-value accumulation `avs = [premium]; for rate in
index_rates[:term]: av *= 1 + credited; avs.append(av)` is a left scan.
The year loop of `cashflows` reads `avs[yr]` for `yr = 1..term`; the
fallible list indexing is modelled with `List.get?`, so `cashflows`
returns `none` exactly when the Python loop would raise `IndexError`.
-/

structure FIA where
  premium : ℚ
  term : ℕ
  qx : List ℚ
  floor : ℚ := 0
  cap : ℚ := 6/100
  participation_rate : ℚ := 1
  age : Option ℕ := none

/-- Participation rate, floor and cap applied to one index rate, from
`FIA.credited_rate`. -/
def FIA.credited_rate (f : FIA) (index_rate : ℚ) : ℚ :=
  max f.floor (min f.cap (index_rate * f.participation_rate))

/-- Account values `[AV_0, AV_1, ..., AV_term]`, from
`FIA._build_account_values`. -/
def FIA.buildAccountValues (f : FIA) (index_rates : List ℚ) : List ℚ :=
  List.scanl (fun av rate => av * (1 + f.credited_rate rate)) f.premium
    (index_rates.take f.term)

structure FIARow where
  year : ℕ
  account_value : ℚ
  survival_prob : ℚ
  death_prob : ℚ
  expected_death_benefit : ℚ
  expected_maturity_benefit : ℚ
  net_cashflow : ℚ

/-- One FIA schedule row for year `yr` (loop body of `FIA.cashflows`);
`none` when `avs[yr]` is out of bounds. -/
def FIA.rowAt (f : FIA) (avs : List ℚ) (yr : ℕ) : Option FIARow :=
  (avs.get? yr).map (fun av =>
    let sp_start := survivalProb f.qx ((yr : ℚ) - 1)
    let sp_end := survivalProb f.qx (yr : ℚ)
    let dp := sp_start - sp_end
    let ed := av * dp
    let em := if yr = f.term then av * sp_end else 0
    { year := yr, account_value := av, survival_prob := sp_end, death_prob := dp,
      expected_death_benefit := ed, expected_maturity_benefit := em,
      net_cashflow := ed + em })

/-- Rows for years `1..k`, accumulated in loop order. -/
def FIA.cfRowsUpTo (f : FIA) (avs : List ℚ) : ℕ → Option (List FIARow)
  | 0 => some []
  | k + 1 =>
    match f.cfRowsUpTo avs k, f.rowAt avs (k + 1) with
    | some rows, some row => some (rows ++ [row])
    | _, _ => none

/-- Expected liability cashflows (annual), from `FIA.cashflows`. -/
def FIA.cashflows (f : FIA) (index_rates : List ℚ) : Option (List FIARow) :=
  f.cfRowsUpTo (f.buildAccountValues index_rates) f.term

/-- PV of expected liability cashflows, from `FIA.present_value`. -/
def FIA.present_value (f : FIA) (index_rates : List ℚ) (discount_rate : ℚ) : Option ℚ :=
  (f.cashflows index_rates).map (fun rows =>
    (rows.map (fun row => row.net_cashflow / (1 + discount_rate) ^ row.year)).sum)

/-- Macaulay duration in years, from `FIA.duration`. -/
def FIA.duration (f : FIA) (index_rates : List ℚ) (discount_rate : ℚ) : Option ℚ :=
  match f.cashflows index_rates, f.present_value index_rates discount_rate with
  | some rows, some pv =>
    some (((rows.map (fun row =>
      (row.year : ℚ) * row.net_cashflow / (1 + discount_rate) ^ row.year)).sum) / pv)
  | _, _ => none

/-- Convexity, from `FIA.convexity`: divides by PV only (annual schedule,
no frequency-squared divisor). -/
def FIA.convexity (f : FIA) (index_rates : List ℚ) (discount_rate : ℚ) : Option ℚ :=
  match f.cashflows index_rates, f.present_value index_rates discount_rate with
  | some rows, some pv =>
    some (((rows.map (fun row =>
      (row.year : ℚ) * ((row.year : ℚ) + 1) * row.net_cashflow /
        (1 + discount_rate) ^ (row.year + 2))).sum) / pv)
  | _, _ => none

lemma fia_buildAccountValues_length (f : FIA) (index_rates : List ℚ) :
    (f.buildAccountValues index_rates).length = min index_rates.length f.term + 1 := by
  unfold FIA.buildAccountValues
  rw [List.length_scanl, List.length_take]
  omega

lemma fia_cfRowsUpTo_isSome_iff (f : FIA) (avs : List ℚ) (k : ℕ) :
    (f.cfRowsUpTo avs k).isSome ↔ ∀ yr, 1 ≤ yr → yr ≤ k → yr < avs.length := by
  induction k with
  | zero =>
    simp [FIA.cfRowsUpTo]
    omega
  | succ k ih =>
    unfold FIA.cfRowsUpTo
    constructor
    · intro h yr h1 h2
      rcases Nat.lt_or_ge yr (k + 1) with hlt | hge
      · rcases hrows : f.cfRowsUpTo avs k with _ | rows
        · rw [hrows] at h
          simp at h
        · exact (ih.mp (by rw [hrows]; rfl)) yr h1 (by omega)
      · have hyr : yr = k + 1 := by omega
        rcases hrow : f.rowAt avs (k + 1) with _ | row
        · rw [hrow] at h
          rcases f.cfRowsUpTo avs k with _ | rows <;> simp at h
        · unfold FIA.rowAt at hrow
          rcases hget : avs.get? (k + 1) with _ | av
          · rw [hget] at hrow
            simp at hrow
          · have hlen : k + 1 < avs.length := by
              by_contra hc
              rw [List.get?_eq_none.mpr (by omega)] at hget
              simp at hget
            omega
    · intro h
      have hrows : (f.cfRowsUpTo avs k).isSome := ih.mpr (fun yr h1 h2 => h yr h1 (by omega))
      have hlt : k + 1 < avs.length := h (k + 1) (by omega) (by omega)
      rcases hr : f.cfRowsUpTo avs k with _ | rows
      · rw [hr] at hrows
        simp at hrows
      · have hrow : (f.rowAt avs (k + 1)).isSome := by
          unfold FIA.rowAt
          rcases hget : avs.get? (k + 1) with _ | av
          · rw [List.get?_eq_none] at hget
            omega
          · simp
        rcases hro : f.rowAt avs (k + 1) with _ | row
        · rw [hro] at hrow
          simp at hrow
        · simp

/-- C10: the account-value list has length `min (len index_rates) term + 1`;
when `len index_rates ≥ term` every year `1..term` indexes it in bounds
(`cashflows` is defined) and only the first `term` rates are used; when
`len index_rates < term` the year loop accesses an out-of-bounds account
value (`cashflows` is undefined). -/
theorem fia_cashflows_index_safety (f : FIA) (index_rates : List ℚ) :
    (f.buildAccountValues index_rates).length = min index_rates.length f.term + 1 ∧
    (f.term ≤ index_rates.length →
      (f.cashflows index_rates).isSome ∧
      f.cashflows index_rates = f.cashflows (index_rates.take f.term)) ∧
    (index_rates.length < f.term → f.cashflows index_rates = none) := by
  refine ⟨fia_buildAccountValues_length f index_rates, ?_, ?_⟩
  · intro hlen
    constructor
    · rw [FIA.cashflows, fia_cfRowsUpTo_isSome_iff]
      intro yr h1 h2
      rw [fia_buildAccountValues_length]
      omega
    · have htake : f.buildAccountValues (index_rates.take f.term) =
          f.buildAccountValues index_rates := by
        unfold FIA.buildAccountValues
        rw [List.take_take, min_self]
      rw [FIA.cashflows, FIA.cashflows, htake]
  · intro hlen
    have hnot : ¬ (f.cashflows index_rates).isSome := by
      rw [FIA.cashflows, fia_cfRowsUpTo_isSome_iff]
      push_neg
      refine ⟨index_rates.length + 1, by omega, by omega, ?_⟩
      rw [fia_buildAccountValues_length]
      omega
    rw [← Option.not_isSome_iff_eq_none]
    exact hnot

/-- Concrete instantiation of `fia_cashflows_index_safety`: a 2-year FIA with
three index rates has a defined schedule; a 4-year FIA with three index rates
runs out of bounds. -/
theorem fia_cashflows_index_safety_witness :
    ((2 : ℕ) ≤ ([1/20, 1/10, 1/4] : List ℚ).length ∧
      (({ premium := 100, term := 2, qx := [1/10, 1/5] } : FIA).cashflows
        [1/20, 1/10, 1/4]).isSome) ∧
    (([1/20, 1/10, 1/4] : List ℚ).length < 4 ∧
      ({ premium := 100, term := 4, qx := [1/10, 1/5] } : FIA).cashflows
        [1/20, 1/10, 1/4] = none) :=
  ⟨⟨by norm_num,
    ((fia_cashflows_index_safety { premium := 100, term := 2, qx := [1/10, 1/5] }
      [1/20, 1/10, 1/4]).2.1 (by norm_num)).1⟩,
   ⟨by norm_num,
    (fia_cashflows_index_safety { premium := 100, term := 4, qx := [1/10, 1/5] }
      [1/20, 1/10, 1/4]).2.2 (by norm_num)⟩⟩

/-!
Bond – plain-vanilla fixed-coupon bullet bond (`src/alm/asset.py`).

The comprehension-built columns (`periods = range(1, n+1)`,
`coupons = [c]*n`, `principals = [0]*(n-1) + [face]`,
`totals = zip-sum`) are modelled with `List.range'`, `List.replicate`
and `List.zipWith`.
-/

structure Bond where
  face_value : ℚ
  coupon_rate : ℚ
  maturity : ℕ
  frequency : ℕ := 2
  rating : Option String := none
  credit_spread : ℚ := 0

def Bond.n_periods (b : Bond) : ℕ := b.maturity * b.frequency

/-- Per-period coupon payment, from `Bond.coupon`. -/
def Bond.coupon (b : Bond) : ℚ := b.face_value * b.coupon_rate / (b.frequency : ℚ)

/-- Total (coupon plus principal) cashflow column, from `Bond.cashflows`. -/
def Bond.totals (b : Bond) : List ℚ :=
  List.zipWith (· + ·) (List.replicate b.n_periods b.coupon)
    (List.replicate (b.n_periods - 1) 0 ++ [b.face_value])

/-- Period column `1..n`, from `Bond.cashflows`. -/
def Bond.periods (b : Bond) : List ℕ := List.range' 1 b.n_periods

/-- Present value at a flat annual discount rate, from `Bond.present_value`. -/
def Bond.present_value (b : Bond) (discount_rate : ℚ) : ℚ :=
  let r := discount_rate / (b.frequency : ℚ)
  ((b.periods.zip b.totals).map (fun tc => tc.2 / (1 + r) ^ tc.1)).sum

/-- Macaulay duration in years, from `Bond.duration`. -/
def Bond.duration (b : Bond) (discount_rate : ℚ) : ℚ :=
  let r := discount_rate / (b.frequency : ℚ)
  let pv := b.present_value discount_rate
  ((b.periods.zip b.totals).map (fun tc =>
    ((tc.1 : ℚ) / (b.frequency : ℚ)) * tc.2 / (1 + r) ^ tc.1)).sum / pv

/-- Convexity in years squared, from `Bond.convexity`. -/
def Bond.convexity (b : Bond) (discount_rate : ℚ) : ℚ :=
  let r := discount_rate / (b.frequency : ℚ)
  let pv := b.present_value discount_rate
  ((b.periods.zip b.totals).map (fun tc =>
    (tc.1 : ℚ) * ((tc.1 : ℚ) + 1) * tc.2 / (1 + r) ^ (tc.1 + 2))).sum /
    (pv * (b.frequency : ℚ) ^ 2)

/-!
PrivateCredit – bullet instrument with a decomposed yield
(`src/alm/asset.py`).
-/

structure PrivateCredit where
  face_value : ℚ
  maturity : ℕ
  risk_free_rate : ℚ
  credit_spread : ℚ
  illiquidity_spread : ℚ
  other_spread : ℚ
  frequency : ℕ := 2
  rating : Option String := none

/-- Total yield as the sum of all spread components, from
`PrivateCredit.total_yield`. -/
def PrivateCredit.total_yield (p : PrivateCredit) : ℚ :=
  p.risk_free_rate + p.credit_spread + p.illiquidity_spread + p.other_spread

def PrivateCredit.n_periods (p : PrivateCredit) : ℕ := p.maturity * p.frequency

/-- Per-period coupon based on total yield, from `PrivateCredit.coupon`. -/
def PrivateCredit.coupon (p : PrivateCredit) : ℚ :=
  p.face_value * p.total_yield / (p.frequency : ℚ)

/-- Total cashflow column, from `PrivateCredit.cashflows`. -/
def PrivateCredit.totals (p : PrivateCredit) : List ℚ :=
  List.zipWith (· + ·) (List.replicate p.n_periods p.coupon)
    (List.replicate (p.n_periods - 1) 0 ++ [p.face_value])

def PrivateCredit.periods (p : PrivateCredit) : List ℕ := List.range' 1 p.n_periods

/-- Present value; `discount_rate = none` means the risk-free rate, from
`PrivateCredit.present_value`. -/
def PrivateCredit.present_value (p : PrivateCredit) (discount_rate : Option ℚ) : ℚ :=
  let rate := discount_rate.getD p.risk_free_rate
  let r := rate / (p.frequency : ℚ)
  ((p.periods.zip p.totals).map (fun tc => tc.2 / (1 + r) ^ tc.1)).sum

/-- Macaulay duration in years, from `PrivateCredit.duration`. -/
def PrivateCredit.duration (p : PrivateCredit) (discount_rate : Option ℚ) : ℚ :=
  let rate := discount_rate.getD p.risk_free_rate
  let r := rate / (p.frequency : ℚ)
  let pv := p.present_value (some rate)
  ((p.periods.zip p.totals).map (fun tc =>
    ((tc.1 : ℚ) / (p.frequency : ℚ)) * tc.2 / (1 + r) ^ tc.1)).sum / pv

/-- Convexity in years squared, from `PrivateCredit.convexity`. -/
def PrivateCredit.convexity (p : PrivateCredit) (discount_rate : Option ℚ) : ℚ :=
  let rate := discount_rate.getD p.risk_free_rate
  let r := rate / (p.frequency : ℚ)
  let pv := p.present_value (some rate)
  ((p.periods.zip p.totals).map (fun tc =>
    (tc.1 : ℚ) * ((tc.1 : ℚ) + 1) * tc.2 / (1 + r) ^ (tc.1 + 2))).sum /
    (pv * (p.frequency : ℚ) ^ 2)

/-!
Mortgage – fixed-rate fully-amortizing loan (`src/alm/asset.py`).

The amortisation loop carries a mutable balance; it is modelled by a
structural recursion over the remaining period count, threading the
running balance and the 1-based period index.
-/

structure Mortgage where
  principal : ℚ
  annual_rate : ℚ
  term : ℕ
  frequency : ℕ := 12

def Mortgage.periodic_rate (m : Mortgage) : ℚ := m.annual_rate / (m.frequency : ℚ)

def Mortgage.n_periods (m : Mortgage) : ℕ := m.term * m.frequency

/-- Level periodic payment, from `Mortgage.payment`. -/
def Mortgage.payment (m : Mortgage) : ℚ :=
  let r := m.periodic_rate
  let n := m.n_periods
  m.principal * r * (1 + r) ^ n / ((1 + r) ^ n - 1)

/-- Outstanding balance after `period` payments (closed form), from
`Mortgage.balance_at`. -/
def Mortgage.balance_at (m : Mortgage) (period : ℕ) : ℚ :=
  let r := m.periodic_rate
  let n := m.n_periods
  m.principal * ((1 + r) ^ n - (1 + r) ^ period) / ((1 + r) ^ n - 1)

structure MortRow where
  period : ℕ
  payment : ℚ
  interest : ℚ
  principal : ℚ
  balance : ℚ

/-- Amortisation loop of `Mortgage.cashflows`: emits `k` rows starting at
period index `t` with running balance `bal`. -/
def Mortgage.schedFrom (m : Mortgage) : ℕ → ℕ → ℚ → List MortRow
  | 0, _, _ => []
  | k + 1, t, bal =>
    let interest := bal * m.periodic_rate
    let princ := m.payment - interest
    let bal2 := bal - princ
    { period := t, payment := m.payment, interest := interest, principal := princ,
      balance := max bal2 0 } :: m.schedFrom k (t + 1) bal2

/-- Full amortisation schedule, from `Mortgage.cashflows`. -/
def Mortgage.cashflows (m : Mortgage) : List MortRow :=
  m.schedFrom m.n_periods 1 m.principal

/-- Present value of the payment stream, from `Mortgage.present_value`. -/
def Mortgage.present_value (m : Mortgage) (discount_rate : ℚ) : ℚ :=
  let r := discount_rate / (m.frequency : ℚ)
  ((m.cashflows).map (fun row => row.payment / (1 + r) ^ row.period)).sum

/-- Macaulay duration in years, from `Mortgage.duration`. -/
def Mortgage.duration (m : Mortgage) (discount_rate : ℚ) : ℚ :=
  let r := discount_rate / (m.frequency : ℚ)
  let pv := m.present_value discount_rate
  ((m.cashflows).map (fun row =>
    ((row.period : ℚ) / (m.frequency : ℚ)) * row.payment / (1 + r) ^ row.period)).sum / pv

/-- Convexity in years squared, from `Mortgage.convexity`. -/
def Mortgage.convexity (m : Mortgage) (discount_rate : ℚ) : ℚ :=
  let r := discount_rate / (m.frequency : ℚ)
  let pv := m.present_value discount_rate
  ((m.cashflows).map (fun row =>
    (row.period : ℚ) * ((row.period : ℚ) + 1) * row.payment /
      (1 + r) ^ (row.period + 2))).sum / (pv * (m.frequency : ℚ) ^ 2)

/-- One balance-update step of the amortisation loop. -/
def Mortgage.balStep (m : Mortgage) (bal : ℚ) : ℚ :=
  bal - (m.payment - bal * m.periodic_rate)

lemma mortgage_schedFrom_length (m : Mortgage) :
    ∀ k t bal, (m.schedFrom k t bal).length = k := by
  intro k
  induction k with
  | zero => intro t bal; rfl
  | succ k ih => intro t bal; simp [Mortgage.schedFrom, ih]

lemma mortgage_schedFrom_getD_balance (m : Mortgage) :
    ∀ k t bal i, i < k →
      ((m.schedFrom k t bal).getD i ⟨0, 0, 0, 0, 0⟩).balance =
        max ((m.balStep)^[i + 1] bal) 0 := by
  intro k
  induction k with
  | zero => intro t bal i h; omega
  | succ k ih =>
    intro t bal i h
    match i with
    | 0 =>
      simp [Mortgage.schedFrom, Mortgage.balStep]
    | j + 1 =>
      have hj : j < k := by omega
      show ((m.schedFrom k (t + 1) (bal - (m.payment - bal * m.periodic_rate))).getD j
        ⟨0, 0, 0, 0, 0⟩).balance = _
      rw [ih (t + 1) (bal - (m.payment - bal * m.periodic_rate)) j hj]
      have : (m.balStep)^[j + 1] (m.balStep bal) = (m.balStep)^[j + 1 + 1] bal := by
        rw [← Function.iterate_succ_apply]
      rw [← this]
      rfl

lemma mortgage_balStep_iterate (m : Mortgage)
    (hr : 0 < m.annual_rate) (hterm : 1 ≤ m.term) (hfreq : 1 ≤ m.frequency) :
    ∀ t : ℕ, (m.balStep)^[t] m.principal = m.balance_at t := by
  have hfq : (0 : ℚ) < (m.frequency : ℚ) := by
    exact_mod_cast Nat.lt_of_lt_of_le Nat.zero_lt_one hfreq
  have hrq : 0 < m.periodic_rate := div_pos hr hfq
  have hn : 1 ≤ m.n_periods := Nat.one_le_iff_ne_zero.mpr (by
    simp [Mortgage.n_periods]
    omega)
  have hpow : 1 < (1 + m.periodic_rate) ^ m.n_periods := by
    apply one_lt_pow₀
    · linarith
    · omega
  have hden : (1 + m.periodic_rate) ^ m.n_periods - 1 ≠ 0 := by linarith
  intro t
  induction t with
  | zero =>
    simp [Mortgage.balance_at]
    rw [mul_div_assoc, div_self hden, mul_one]
  | succ t ih =>
    rw [Function.iterate_succ_apply', ih]
    unfold Mortgage.balStep Mortgage.balance_at Mortgage.payment
    field_simp
    ring

lemma mortgage_balance_at_nonneg (m : Mortgage) (hp : 0 < m.principal)
    (hr : 0 < m.annual_rate) (hfreq : 1 ≤ m.frequency) (t : ℕ) (ht : t ≤ m.n_periods) :
    0 ≤ m.balance_at t := by
  have hfq : (0 : ℚ) < (m.frequency : ℚ) := by
    exact_mod_cast Nat.lt_of_lt_of_le Nat.zero_lt_one hfreq
  have hrq : 0 < m.periodic_rate := div_pos hr hfq
  have hbase : (1 : ℚ) ≤ 1 + m.periodic_rate := by linarith
  have hmono : (1 + m.periodic_rate) ^ t ≤ (1 + m.periodic_rate) ^ m.n_periods :=
    pow_le_pow_right₀ hbase ht
  have hposn : (1 : ℚ) ≤ (1 + m.periodic_rate) ^ m.n_periods := one_le_pow₀ hbase
  unfold Mortgage.balance_at
  apply div_nonneg
  · apply mul_nonneg (le_of_lt hp)
    linarith
  · linarith

/-- C2: for every Mortgage with positive principal and rate and at least one
period, the closed-form `balance_at t` equals the schedule balance at period
`t` for all `1 ≤ t ≤ n_periods`, and the final balance is exactly zero. -/
theorem mortgage_schedule_matches_closed_form (m : Mortgage) (hp : 0 < m.principal)
    (hr : 0 < m.annual_rate) (hterm : 1 ≤ m.term) (hfreq : 1 ≤ m.frequency) :
    m.cashflows.length = m.n_periods ∧
    (∀ t, 1 ≤ t → t ≤ m.n_periods →
      (m.cashflows.getD (t - 1) ⟨0, 0, 0, 0, 0⟩).balance = m.balance_at t) ∧
    m.balance_at m.n_periods = 0 ∧
    (m.cashflows.getD (m.n_periods - 1) ⟨0, 0, 0, 0, 0⟩).balance = 0 := by
  have hlen : m.cashflows.length = m.n_periods := mortgage_schedFrom_length m m.n_periods 1 m.principal
  have hbal : ∀ t, 1 ≤ t → t ≤ m.n_periods →
      (m.cashflows.getD (t - 1) ⟨0, 0, 0, 0, 0⟩).balance = m.balance_at t := by
    intro t h1 h2
    unfold Mortgage.cashflows
    rw [mortgage_schedFrom_getD_balance m m.n_periods 1 m.principal (t - 1) (by omega)]
    have ht : t - 1 + 1 = t := by omega
    rw [ht, mortgage_balStep_iterate m hr hterm hfreq t]
    exact max_eq_left (mortgage_balance_at_nonneg m hp hr hfreq t h2)
  have hn : 1 ≤ m.n_periods := by
    have : m.n_periods = m.term * m.frequency := rfl
    rw [this]
    exact Nat.one_le_iff_ne_zero.mpr (by positivity)
  have hfinal : m.balance_at m.n_periods = 0 := by
    unfold Mortgage.balance_at
    simp
  refine ⟨hlen, hbal, hfinal, ?_⟩
  rw [hbal m.n_periods hn le_rfl, hfinal]

/-- Concrete instantiation of `mortgage_schedule_matches_closed_form` for a
2-period annual mortgage at 10%. -/
theorem mortgage_schedule_matches_closed_form_witness :
    (0 : ℚ) < 1000 ∧ (0 : ℚ) < 1/10 ∧ (1 : ℕ) ≤ 2 ∧ (1 : ℕ) ≤ 1 ∧
    ((Mortgage.mk 1000 (1/10) 2 1).cashflows.length = (Mortgage.mk 1000 (1/10) 2 1).n_periods ∧
    (∀ t, 1 ≤ t → t ≤ (Mortgage.mk 1000 (1/10) 2 1).n_periods →
      ((Mortgage.mk 1000 (1/10) 2 1).cashflows.getD (t - 1) ⟨0, 0, 0, 0, 0⟩).balance =
        (Mortgage.mk 1000 (1/10) 2 1).balance_at t) ∧
    (Mortgage.mk 1000 (1/10) 2 1).balance_at (Mortgage.mk 1000 (1/10) 2 1).n_periods = 0 ∧
    ((Mortgage.mk 1000 (1/10) 2 1).cashflows.getD
      ((Mortgage.mk 1000 (1/10) 2 1).n_periods - 1) ⟨0, 0, 0, 0, 0⟩).balance = 0) :=
  ⟨by norm_num, by norm_num, by norm_num, by norm_num,
    mortgage_schedule_matches_closed_form (Mortgage.mk 1000 (1/10) 2 1)
      (by norm_num) (by norm_num) (by norm_num) (by norm_num)⟩

/-!
Hedging utilities (`src/alm/core.py`): the 2x2 hedge solver `immunize`
and the Newton-Raphson root finder `irr`.  `raise ValueError` becomes
`Except.error`; the float literals `1e-15` and the default `1e-10`
tolerance are the exact rationals `1/10^15` and `1/10^10`.
-/

/-- Solve for notionals of two hedging instruments closing the
dollar-duration and dollar-convexity gaps, from `immunize`. -/
def immunize (dd_gap dc_gap dd_per_unit_1 dc_per_unit_1 dd_per_unit_2 dc_per_unit_2 : ℚ) :
    Except String (ℚ × ℚ) :=
  let det := dd_per_unit_1 * dc_per_unit_2 - dd_per_unit_2 * dc_per_unit_1
  if |det| < 1 / 10 ^ 15 then
    .error "Hedging instruments have linearly dependent sensitivities"
  else
    .ok ((dd_gap * dc_per_unit_2 - dc_gap * dd_per_unit_2) / det,
      (dd_per_unit_1 * dc_gap - dc_per_unit_1 * dd_gap) / det)

/-- C5: with `|det| ≥ 1e-15` the returned `(n1, n2)` exactly satisfies both
linear equations, zero gaps give `(0, 0)`, and the degenerate-system error
is raised exactly when `|det| < 1e-15`. -/
theorem immunize_spec (dd_gap dc_gap dd1 dc1 dd2 dc2 : ℚ) :
    (1 / 10 ^ 15 ≤ |dd1 * dc2 - dd2 * dc1| →
      ∃ n1 n2, immunize dd_gap dc_gap dd1 dc1 dd2 dc2 = .ok (n1, n2) ∧
        n1 * dd1 + n2 * dd2 = dd_gap ∧ n1 * dc1 + n2 * dc2 = dc_gap ∧
        (dd_gap = 0 → dc_gap = 0 → (n1, n2) = (0, 0))) ∧
    (|dd1 * dc2 - dd2 * dc1| < 1 / 10 ^ 15 →
      immunize dd_gap dc_gap dd1 dc1 dd2 dc2 =
        .error "Hedging instruments have linearly dependent sensitivities") := by
  constructor
  · intro hdet
    have hne : dd1 * dc2 - dd2 * dc1 ≠ 0 := by
      intro h0
      rw [h0] at hdet
      simp at hdet
      linarith
    refine ⟨(dd_gap * dc2 - dc_gap * dd2) / (dd1 * dc2 - dd2 * dc1),
      (dd1 * dc_gap - dc1 * dd_gap) / (dd1 * dc2 - dd2 * dc1), ?_, ?_, ?_, ?_⟩
    · unfold immunize
      rw [if_neg (not_lt.mpr hdet)]
    · field_simp
      ring
    · field_simp
      ring
    · intro h1 h2
      rw [h1, h2]
      norm_num
  · intro hdet
    unfold immunize
    rw [if_pos hdet]

/-- Concrete instantiation of `immunize_spec` at the docstring example
inputs and at a collinear pair. -/
theorem immunize_spec_witness :
    ((1 : ℚ) / 10 ^ 15 ≤ |(4 : ℚ) * 90 - 8 * 20| ∧
      ∃ n1 n2, immunize 500 80000 4 20 8 90 = .ok (n1, n2) ∧
        n1 * 4 + n2 * 8 = 500 ∧ n1 * 20 + n2 * 90 = 80000 ∧
        ((500 : ℚ) = 0 → (80000 : ℚ) = 0 → (n1, n2) = (0, 0))) ∧
    (|(1 : ℚ) * 2 - 2 * 1| < 1 / 10 ^ 15 ∧
      immunize 3 4 1 1 2 2 =
        .error "Hedging instruments have linearly dependent sensitivities") :=
  ⟨⟨by norm_num, (immunize_spec 500 80000 4 20 8 90).1 (by norm_num)⟩,
   ⟨by norm_num, (immunize_spec 3 4 1 1 2 2).2 (by norm_num)⟩⟩


/-- Net present value `Σ CF_t/(1+r)^t` with 0-based `t`, from the loop body
of `irr`. -/
def npvQ (cashflows : List ℚ) (r : ℚ) : ℚ :=
  (cashflows.enum.map (fun tc => tc.2 / (1 + r) ^ tc.1)).sum

/-- Derivative of the NPV, `Σ -t*CF_t/(1+r)^(t+1)`, from the loop body of
`irr`. -/
def dnpvQ (cashflows : List ℚ) (r : ℚ) : ℚ :=
  (cashflows.enum.map (fun tc => -(tc.1 : ℚ) * tc.2 / (1 + r) ^ (tc.1 + 1))).sum

/-- One Newton-Raphson step amount `NPV(r)/NPV'(r)`. -/
def newtonStep (cashflows : List ℚ) (r : ℚ) : ℚ :=
  npvQ cashflows r / dnpvQ cashflows r

/-- The Newton-Raphson iterate sequence started at `guess`. -/
def newtonIter (cashflows : List ℚ) (guess : ℚ) : ℕ → ℚ
  | 0 => guess
  | k + 1 => newtonIter cashflows guess k - newtonStep cashflows (newtonIter cashflows guess k)

/-- The `for _ in range(max_iter)` loop of `irr`, fuel-indexed.  Exhausted
fuel and the degenerate-derivative `break` both reach the final `raise`,
modelled as `Except.error`. -/
def irrLoop (cashflows : List ℚ) (tol : ℚ) : ℚ → ℕ → Except String ℚ
  | _, 0 => .error "IRR did not converge"
  | r, fuel + 1 =>
    let npv := npvQ cashflows r
    let dnpv := dnpvQ cashflows r
    if |dnpv| < 1 / 10 ^ 15 then .error "IRR did not converge"
    else
      let step := npv / dnpv
      if |step| < tol then .ok (r - step) else irrLoop cashflows tol (r - step) fuel

/-- Internal rate of return via Newton-Raphson, from `irr` (defaults in the
source: `guess = 0.05`, `tol = 1e-10`, `max_iter = 200`). -/
def irr (cashflows : List ℚ) (guess : ℚ) (tol : ℚ) (max_iter : ℕ) : Except String ℚ :=
  irrLoop cashflows tol guess max_iter

/-- The step criterion is met at iteration `k`: every derivative up to and
including iteration `k` is non-degenerate, no earlier step was below
tolerance, and the step at `k` is below tolerance. -/
def irrConvergesAt (cashflows : List ℚ) (guess tol : ℚ) (k : ℕ) : Prop :=
  (∀ j, j ≤ k → 1 / 10 ^ 15 ≤ |dnpvQ cashflows (newtonIter cashflows guess j)|) ∧
  (∀ j, j < k → tol ≤ |newtonStep cashflows (newtonIter cashflows guess j)|) ∧
  |newtonStep cashflows (newtonIter cashflows guess k)| < tol

lemma irrLoop_succ_degenerate (cashflows : List ℚ) (tol r : ℚ) (fuel : ℕ)
    (h : |dnpvQ cashflows r| < 1 / 10 ^ 15) :
    irrLoop cashflows tol r (fuel + 1) = .error "IRR did not converge" := by
  simp only [irrLoop]
  rw [if_pos h]

lemma irrLoop_succ_converged (cashflows : List ℚ) (tol r : ℚ) (fuel : ℕ)
    (h1 : ¬ |dnpvQ cashflows r| < 1 / 10 ^ 15)
    (h2 : |newtonStep cashflows r| < tol) :
    irrLoop cashflows tol r (fuel + 1) = .ok (r - newtonStep cashflows r) := by
  unfold newtonStep at h2
  simp only [irrLoop]
  rw [if_neg h1, if_pos h2]
  rfl

lemma irrLoop_succ_continue (cashflows : List ℚ) (tol r : ℚ) (fuel : ℕ)
    (h1 : ¬ |dnpvQ cashflows r| < 1 / 10 ^ 15)
    (h2 : ¬ |newtonStep cashflows r| < tol) :
    irrLoop cashflows tol r (fuel + 1) =
      irrLoop cashflows tol (r - newtonStep cashflows r) fuel := by
  unfold newtonStep at h2
  simp only [irrLoop]
  rw [if_neg h1, if_neg h2]
  rfl

lemma newtonIter_shift (cashflows : List ℚ) (guess : ℚ) (j : ℕ) :
    newtonIter cashflows (guess - newtonStep cashflows guess) j =
      newtonIter cashflows guess (j + 1) := by
  induction j with
  | zero => rfl
  | succ j ih =>
    show newtonIter cashflows (guess - newtonStep cashflows guess) j -
        newtonStep cashflows (newtonIter cashflows (guess - newtonStep cashflows guess) j) = _
    rw [ih]
    rfl

lemma irrLoop_ok_iff (cashflows : List ℚ) (tol : ℚ) :
    ∀ fuel guess v, irrLoop cashflows tol guess fuel = .ok v ↔
      ∃ k, k < fuel ∧ irrConvergesAt cashflows guess tol k ∧
        v = newtonIter cashflows guess (k + 1) := by
  intro fuel
  induction fuel with
  | zero =>
    intro guess v
    constructor
    · intro h
      exact absurd h (by simp [irrLoop])
    · rintro ⟨k, hk, -⟩
      omega
  | succ fuel ih =>
    intro guess v
    by_cases hd : |dnpvQ cashflows guess| < 1 / 10 ^ 15
    · rw [irrLoop_succ_degenerate cashflows tol guess fuel hd]
      constructor
      · intro h
        cases h
      · rintro ⟨k, hk, ⟨hD, -, -⟩, -⟩
        exact absurd (hD 0 (Nat.zero_le k)) (not_le.mpr hd)
    · by_cases hs : |newtonStep cashflows guess| < tol
      · rw [irrLoop_succ_converged cashflows tol guess fuel hd hs]
        constructor
        · intro h
          have hv : guess - newtonStep cashflows guess = v := Except.ok.inj h
          refine ⟨0, by omega, ⟨?_, ?_, hs⟩, ?_⟩
          · intro j hj
            have hj0 : j = 0 := Nat.le_zero.mp hj
            rw [hj0]
            exact not_lt.mp hd
          · intro j hj
            omega
          · rw [← hv]
            rfl
        · rintro ⟨k, hk, ⟨hD, hS, hsk⟩, hv⟩
          match k with
          | 0 =>
            rw [hv]
            rfl
          | k + 1 =>
            exact absurd (hS 0 (Nat.succ_pos k)) (not_le.mpr hs)
      · rw [irrLoop_succ_continue cashflows tol guess fuel hd hs, ih]
        constructor
        · rintro ⟨k, hk, ⟨hD, hS, hsk⟩, hv⟩
          refine ⟨k + 1, by omega, ⟨?_, ?_, ?_⟩, ?_⟩
          · intro j hj
            match j with
            | 0 => exact not_lt.mp hd
            | j + 1 =>
              rw [← newtonIter_shift]
              exact hD j (by omega)
          · intro j hj
            match j with
            | 0 => exact not_lt.mp hs
            | j + 1 =>
              rw [← newtonIter_shift]
              exact hS j (by omega)
          · rw [← newtonIter_shift]
            exact hsk
          · rw [hv]
            exact newtonIter_shift cashflows guess (k + 1)
        · rintro ⟨k, hk, ⟨hD, hS, hsk⟩, hv⟩
          match k with
          | 0 => exact absurd hsk (not_lt.mpr (not_lt.mp hs))
          | k + 1 =>
            refine ⟨k, by omega, ⟨?_, ?_, ?_⟩, ?_⟩
            · intro j hj
              rw [newtonIter_shift]
              exact hD (j + 1) (by omega)
            · intro j hj
              rw [newtonIter_shift]
              exact hS (j + 1) (by omega)
            · rw [newtonIter_shift]
              exact hsk
            · rw [hv]
              exact (newtonIter_shift cashflows guess (k + 1)).symm

/-- C6: `irr` raises non-convergence exactly when no Newton-Raphson
iteration within `max_iter` produces a step below tolerance (the
degenerate-derivative `break` included), and a returned rate is the
iterate immediately after the first step whose size was below
tolerance. -/
theorem irr_newton_convergence (cashflows : List ℚ) (guess tol : ℚ) (max_iter : ℕ) :
    ((∃ e, irr cashflows guess tol max_iter = .error e) ↔
      ¬ ∃ k, k < max_iter ∧ irrConvergesAt cashflows guess tol k) ∧
    (∀ v, irr cashflows guess tol max_iter = .ok v ↔
      ∃ k, k < max_iter ∧ irrConvergesAt cashflows guess tol k ∧
        v = newtonIter cashflows guess (k + 1)) := by
  have hok : ∀ v, irr cashflows guess tol max_iter = .ok v ↔
      ∃ k, k < max_iter ∧ irrConvergesAt cashflows guess tol k ∧
        v = newtonIter cashflows guess (k + 1) :=
    fun v => irrLoop_ok_iff cashflows tol max_iter guess v
  refine ⟨⟨?_, ?_⟩, hok⟩
  · rintro ⟨e, he⟩ ⟨k, hk, hconv⟩
    have h2 : irr cashflows guess tol max_iter = .ok (newtonIter cashflows guess (k + 1)) :=
      (hok _).mpr ⟨k, hk, hconv, rfl⟩
    rw [he] at h2
    cases h2
  · intro hnone
    cases hcase : irr cashflows guess tol max_iter with
    | error e => exact ⟨e, rfl⟩
    | ok v =>
      exfalso
      obtain ⟨k, hk, hconv, -⟩ := (hok v).mp hcase
      exact hnone ⟨k, hk, hconv⟩

/-- Concrete instantiation of `irr_newton_convergence`: for cashflows
`[-100, 105]` the default guess `0.05` is the exact root, so the first step
is below tolerance and `irr` returns it. -/
theorem irr_newton_convergence_witness :
    irr [-100, 105] (1/20) (1/10 ^ 10) 200 = .ok (1/20) := by
  have hnpv : npvQ [-100, 105] (1/20) = 0 := by
    norm_num [npvQ, List.enum, List.enumFrom]
  have hdnpv : dnpvQ [-100, 105] (1/20) = -2000/21 := by
    norm_num [dnpvQ, List.enum, List.enumFrom]
  have hstep : newtonStep [-100, 105] (1/20) = 0 := by
    rw [newtonStep, hnpv, zero_div]
  have hiter0 : newtonIter [-100, 105] (1/20) 0 = 1/20 := rfl
  apply ((irr_newton_convergence [-100, 105] (1/20) (1/10 ^ 10) 200).2 (1/20)).mpr
  refine ⟨0, by norm_num, ⟨?_, ?_, ?_⟩, ?_⟩
  · intro j hj
    have hj0 : j = 0 := Nat.le_zero.mp hj
    subst hj0
    rw [hiter0, hdnpv, abs_of_nonpos (by norm_num)]
    norm_num
  · intro j hj
    omega
  · rw [hiter0, hstep]
    norm_num
  · show (1 : ℚ)/20 = newtonIter [-100, 105] (1/20) 1
    rw [show newtonIter [-100, 105] ((1 : ℚ)/20) 1 =
      newtonIter [-100, 105] (1/20) 0 -
        newtonStep [-100, 105] (newtonIter [-100, 105] (1/20) 0) from rfl]
    rw [hiter0, hstep, sub_zero]

/-!
InterestRateSwap – plain-vanilla fixed-for-floating swap
(`src/alm/core.py`).

Embedding notes: the source row also carries a display-rounded `year`
column, omitted here as no modelled computation consumes it.  The source
indexes `floating_rates[t-1]` and raises `IndexError` when the list is
too short; the theorems below therefore carry the spec's
sufficient-length hypothesis and the embedding uses `List.getD`.
-/

structure InterestRateSwap where
  notional : ℚ
  fixed_rate : ℚ
  tenor : ℕ
  frequency : ℕ := 2
  pay_fixed : Bool := true

def InterestRateSwap.n_periods (s : InterestRateSwap) : ℕ := s.tenor * s.frequency

structure SwapRow where
  period : ℕ
  fixed_leg : ℚ
  floating_leg : ℚ
  net_cashflow : ℚ

/-- Net swap cashflows per payment period, from
`InterestRateSwap.cashflows`. -/
def InterestRateSwap.cashflows (s : InterestRateSwap) (floating_rates : List ℚ) :
    List SwapRow :=
  (List.range s.n_periods).map (fun i =>
    let t : ℕ := i + 1
    let fixed_pmt := s.notional * s.fixed_rate / (s.frequency : ℚ)
    let float_pmt := s.notional * floating_rates.getD (t - 1) 0 / (s.frequency : ℚ)
    let sign : ℚ := if s.pay_fixed then -1 else 1
    { period := t, fixed_leg := fixed_pmt, floating_leg := float_pmt,
      net_cashflow := sign * (fixed_pmt - float_pmt) })

/-- PV of net swap cashflows, from `InterestRateSwap.present_value`. -/
def InterestRateSwap.present_value (s : InterestRateSwap) (floating_rates : List ℚ)
    (discount_rate : ℚ) : ℚ :=
  let r := discount_rate / (s.frequency : ℚ)
  ((s.cashflows floating_rates).map (fun row => row.net_cashflow / (1 + r) ^ row.period)).sum

/-- Macaulay duration in years, from `InterestRateSwap.duration`. -/
def InterestRateSwap.duration (s : InterestRateSwap) (floating_rates : List ℚ)
    (discount_rate : ℚ) : ℚ :=
  let r := discount_rate / (s.frequency : ℚ)
  let pv := s.present_value floating_rates discount_rate
  ((s.cashflows floating_rates).map (fun row =>
    ((row.period : ℚ) / (s.frequency : ℚ)) * row.net_cashflow / (1 + r) ^ row.period)).sum / pv

/-- Convexity in years squared, from `InterestRateSwap.convexity`. -/
def InterestRateSwap.convexity (s : InterestRateSwap) (floating_rates : List ℚ)
    (discount_rate : ℚ) : ℚ :=
  let r := discount_rate / (s.frequency : ℚ)
  let pv := s.present_value floating_rates discount_rate
  ((s.cashflows floating_rates).map (fun row =>
    (row.period : ℚ) * ((row.period : ℚ) + 1) * row.net_cashflow /
      (1 + r) ^ (row.period + 2))).sum / (pv * (s.frequency : ℚ) ^ 2)

/-- Symmetric-parallel-bump DV01, from `InterestRateSwap.dv01`: both the
floating rates and the discount rate shift by one basis point. -/
def InterestRateSwap.dv01 (s : InterestRateSwap) (floating_rates : List ℚ)
    (discount_rate : ℚ) : ℚ :=
  let bump : ℚ := 1 / 10 ^ 4
  let floats_up := floating_rates.map (fun r => r + bump)
  let floats_down := floating_rates.map (fun r => r - bump)
  let pv_down := s.present_value floats_down (discount_rate - bump)
  let pv_up := s.present_value floats_up (discount_rate + bump)
  (pv_down - pv_up) / 2

lemma swap_pv_eq_sum (s : InterestRateSwap) (fl : List ℚ) (dr : ℚ) :
    s.present_value fl dr =
      ∑ i in Finset.range s.n_periods,
        (if s.pay_fixed then (-1 : ℚ) else 1) *
          (s.notional * s.fixed_rate / (s.frequency : ℚ) -
            s.notional * fl.getD i 0 / (s.frequency : ℚ)) /
          (1 + dr / (s.frequency : ℚ)) ^ (i + 1) := by
  simp only [InterestRateSwap.present_value, InterestRateSwap.cashflows]
  rw [List.map_map, sum_map_range]
  rfl

lemma swap_pv_flag_neg (notional fixed_rate : ℚ) (tenor frequency : ℕ)
    (fl : List ℚ) (dr : ℚ) :
    (InterestRateSwap.mk notional fixed_rate tenor frequency true).present_value fl dr =
      - (InterestRateSwap.mk notional fixed_rate tenor frequency false).present_value fl dr := by
  rw [swap_pv_eq_sum, swap_pv_eq_sum, ← Finset.sum_neg_distrib]
  apply Finset.sum_congr rfl
  intro i hi
  simp only [eq_self_iff_true, Bool.false_eq_true, if_true, if_false]
  ring

/-- C7: pay-fixed and receive-fixed swaps with identical terms have exactly
opposite present values and DV01s, and an at-the-money swap (floating equal
to fixed in every period) has present value exactly zero. -/
theorem swap_pay_receive_antisymmetry (notional fixed_rate : ℚ) (tenor frequency : ℕ)
    (floating_rates : List ℚ) (discount_rate : ℚ)
    (_hlen : tenor * frequency ≤ floating_rates.length) :
    (InterestRateSwap.mk notional fixed_rate tenor frequency true).present_value
        floating_rates discount_rate =
      - (InterestRateSwap.mk notional fixed_rate tenor frequency false).present_value
        floating_rates discount_rate ∧
    (InterestRateSwap.mk notional fixed_rate tenor frequency true).dv01
        floating_rates discount_rate =
      - (InterestRateSwap.mk notional fixed_rate tenor frequency false).dv01
        floating_rates discount_rate ∧
    ((∀ i, i < tenor * frequency → floating_rates.getD i 0 = fixed_rate) →
      (InterestRateSwap.mk notional fixed_rate tenor frequency true).present_value
        floating_rates discount_rate = 0) := by
  refine ⟨swap_pv_flag_neg notional fixed_rate tenor frequency floating_rates discount_rate,
    ?_, ?_⟩
  · simp only [InterestRateSwap.dv01]
    rw [swap_pv_flag_neg, swap_pv_flag_neg]
    ring
  · intro hatm
    rw [swap_pv_eq_sum]
    apply Finset.sum_eq_zero
    intro i hi
    rw [hatm i (Finset.mem_range.mp hi)]
    ring

/-- Concrete instantiation of `swap_pay_receive_antisymmetry` for a 1-year
semi-annual swap at a 4% fixed rate against a flat 4% floating curve. -/
theorem swap_pay_receive_antisymmetry_witness :
    ((1 : ℕ) * 2 ≤ ([4/100, 4/100] : List ℚ).length ∧
    (InterestRateSwap.mk 1000 (4/100) 1 2 true).present_value [4/100, 4/100] (3/100) =
      - (InterestRateSwap.mk 1000 (4/100) 1 2 false).present_value [4/100, 4/100] (3/100) ∧
    (InterestRateSwap.mk 1000 (4/100) 1 2 true).dv01 [4/100, 4/100] (3/100) =
      - (InterestRateSwap.mk 1000 (4/100) 1 2 false).dv01 [4/100, 4/100] (3/100)) ∧
    (InterestRateSwap.mk 1000 (4/100) 1 2 true).present_value [4/100, 4/100] (3/100) = 0 := by
  have h := swap_pay_receive_antisymmetry 1000 (4/100) 1 2 [4/100, 4/100] (3/100)
    (by norm_num)
  refine ⟨⟨by norm_num, h.1, h.2.1⟩, h.2.2 ?_⟩
  intro i hi
  interval_cases i <;> norm_num

/-!
Convexity shape lemmas: each instrument's convexity rewritten as an
explicit indexed sum over periods, exposing the divisor (`PV * freq²`
everywhere except FIA, which divides by PV alone).
-/

lemma zip_range1_map_sum (F : ℕ × ℚ → ℚ) :
    ∀ (n a : ℕ) (vs : List ℚ),
      ((List.zip (List.range' a n) vs).map F).sum =
        ∑ i in Finset.range (min n vs.length), F (a + i, vs.getD i 0) := by
  intro n
  induction n with
  | zero => intro a vs; simp
  | succ n ih =>
    intro a vs
    cases vs with
    | nil => simp
    | cons v vs =>
      rw [List.range'_succ, List.zip_cons_cons, List.map_cons, List.sum_cons, ih (a + 1) vs]
      simp only [List.length_cons]
      rw [show min (n + 1) (vs.length + 1) = min n vs.length + 1 by omega]
      rw [Finset.sum_range_succ', add_comm]
      congr 1
      apply Finset.sum_congr rfl
      intro i _
      rw [List.getD_cons_succ]
      congr 2
      omega

lemma bullet_totals_length (n : ℕ) (c face : ℚ) :
    (List.zipWith (· + ·) (List.replicate n c) (List.replicate (n - 1) 0 ++ [face])).length
      = n := by
  rw [List.length_zipWith, List.length_append, List.length_replicate, List.length_replicate]
  simp
  omega

lemma getD_bullet (c face : ℚ) :
    ∀ n i, i < n →
      (List.zipWith (· + ·) (List.replicate n c)
        (List.replicate (n - 1) 0 ++ [face])).getD i 0 =
        c + if i = n - 1 then face else 0 := by
  intro n
  induction n with
  | zero => intro i hi; omega
  | succ n ih =>
    intro i hi
    cases n with
    | zero =>
      have hi0 : i = 0 := by omega
      subst hi0
      simp
    | succ m =>
      rw [show (m + 1 + 1 : ℕ) - 1 = m + 1 by omega]
      rw [List.replicate_succ (n := m + 1) (a := c),
        List.replicate_succ (n := m) (a := (0 : ℚ)), List.cons_append, List.zipWith_cons_cons]
      cases i with
      | zero =>
        rw [List.getD_cons_zero, if_neg (show ¬ (0 = m + 1) by omega)]
      | succ j =>
        rw [List.getD_cons_succ]
        simp only [Nat.add_sub_cancel] at ih
        rw [ih j (by omega)]
        have hiff : (j = m) = (j + 1 = m + 1) := by
          apply propext
          constructor <;> intro <;> omega
        simp only [hiff]

lemma bullet_conv_sum (n : ℕ) (c face r : ℚ) :
    ((List.zip (List.range' 1 n)
        (List.zipWith (· + ·) (List.replicate n c) (List.replicate (n - 1) 0 ++ [face]))).map
      (fun tc => (tc.1 : ℚ) * ((tc.1 : ℚ) + 1) * tc.2 / (1 + r) ^ (tc.1 + 2))).sum =
      ∑ i in Finset.range n,
        ((i + 1 : ℕ) : ℚ) * (((i + 1 : ℕ) : ℚ) + 1) *
          (c + if i + 1 = n then face else 0) / (1 + r) ^ (i + 1 + 2) := by
  rw [zip_range1_map_sum, bullet_totals_length, min_self]
  apply Finset.sum_congr rfl
  intro i hi
  have hin : i < n := Finset.mem_range.mp hi
  rw [getD_bullet c face n i hin]
  rw [show 1 + i = i + 1 from by omega]
  have hiff : (i = n - 1) = (i + 1 = n) := by
    apply propext
    constructor <;> intro <;> omega
  dsimp only
  simp only [hiff]

/-- Bond convexity as an explicit indexed sum divided by `PV * freq²`. -/
lemma bond_convexity_eq (b : Bond) (dr : ℚ) :
    b.convexity dr =
      (∑ i in Finset.range b.n_periods,
        ((i + 1 : ℕ) : ℚ) * (((i + 1 : ℕ) : ℚ) + 1) *
          (b.coupon + if i + 1 = b.n_periods then b.face_value else 0) /
          (1 + dr / (b.frequency : ℚ)) ^ (i + 1 + 2)) /
      (b.present_value dr * (b.frequency : ℚ) ^ 2) := by
  simp only [Bond.convexity, Bond.periods, Bond.totals]
  rw [bullet_conv_sum]

/-- PrivateCredit convexity as an explicit indexed sum divided by
`PV * freq²`. -/
lemma private_credit_convexity_eq (p : PrivateCredit) (dro : Option ℚ) :
    p.convexity dro =
      (∑ i in Finset.range p.n_periods,
        ((i + 1 : ℕ) : ℚ) * (((i + 1 : ℕ) : ℚ) + 1) *
          (p.coupon + if i + 1 = p.n_periods then p.face_value else 0) /
          (1 + dro.getD p.risk_free_rate / (p.frequency : ℚ)) ^ (i + 1 + 2)) /
      (p.present_value (some (dro.getD p.risk_free_rate)) * (p.frequency : ℚ) ^ 2) := by
  simp only [PrivateCredit.convexity, PrivateCredit.periods, PrivateCredit.totals]
  rw [bullet_conv_sum]

/-- SPIA convexity as an explicit indexed sum divided by `PV * freq²`. -/
lemma spia_convexity_eq (p : SPIA) (dr : ℚ) :
    p.convexity dr =
      (∑ i in Finset.range (p.qx.length * p.frequency),
        ((i + 1 : ℕ) : ℚ) * (((i + 1 : ℕ) : ℚ) + 1) *
          (if ((i + 1 : ℕ) : ℚ) / (p.frequency : ℚ) ≤ (p.certain_period : ℚ)
            then p.annual_payout / (p.frequency : ℚ)
            else p.annual_payout / (p.frequency : ℚ) *
              survivalProb p.qx (((i + 1 : ℕ) : ℚ) / (p.frequency : ℚ))) /
          (1 + dr / (p.frequency : ℚ)) ^ (i + 1 + 2)) /
      (p.present_value dr * (p.frequency : ℚ) ^ 2) := by
  simp only [SPIA.convexity, SPIA.cashflows, List.map_map]
  rw [sum_map_range]
  rfl

/-- WL convexity as an explicit indexed sum divided by `PV * freq²`. -/
lemma wl_convexity_eq (p : WL) (dr : ℚ) :
    p.convexity dr =
      (∑ i in Finset.range (p.qx.length * p.frequency),
        ((i + 1 : ℕ) : ℚ) * (((i + 1 : ℕ) : ℚ) + 1) *
          (p.face_value *
              (survivalProb p.qx ((((i + 1 : ℕ) : ℚ) - 1) / (p.frequency : ℚ)) -
                survivalProb p.qx (((i + 1 : ℕ) : ℚ) / (p.frequency : ℚ))) -
            p.annual_premium / (p.frequency : ℚ) *
              survivalProb p.qx ((((i + 1 : ℕ) : ℚ) - 1) / (p.frequency : ℚ))) /
          (1 + dr / (p.frequency : ℚ)) ^ (i + 1 + 2)) /
      (p.present_value dr * (p.frequency : ℚ) ^ 2) := by
  simp only [WL.convexity, WL.cashflows, lifeRow, List.map_map]
  rw [sum_map_range]
  rfl

/-- Term convexity as an explicit indexed sum divided by `PV * freq²`. -/
lemma term_convexity_eq (p : Term) (dr : ℚ) :
    p.convexity dr =
      (∑ i in Finset.range (p.term * p.frequency),
        ((i + 1 : ℕ) : ℚ) * (((i + 1 : ℕ) : ℚ) + 1) *
          (p.face_value *
              (survivalProb p.qx ((((i + 1 : ℕ) : ℚ) - 1) / (p.frequency : ℚ)) -
                survivalProb p.qx (((i + 1 : ℕ) : ℚ) / (p.frequency : ℚ))) -
            p.annual_premium / (p.frequency : ℚ) *
              survivalProb p.qx ((((i + 1 : ℕ) : ℚ) - 1) / (p.frequency : ℚ))) /
          (1 + dr / (p.frequency : ℚ)) ^ (i + 1 + 2)) /
      (p.present_value dr * (p.frequency : ℚ) ^ 2) := by
  simp only [Term.convexity, Term.cashflows, lifeRow, List.map_map]
  rw [sum_map_range]
  rfl

/-- Swap convexity as an explicit indexed sum divided by `PV * freq²`. -/
lemma swap_convexity_eq (s : InterestRateSwap) (fl : List ℚ) (dr : ℚ) :
    s.convexity fl dr =
      (∑ i in Finset.range s.n_periods,
        ((i + 1 : ℕ) : ℚ) * (((i + 1 : ℕ) : ℚ) + 1) *
          ((if s.pay_fixed then (-1 : ℚ) else 1) *
            (s.notional * s.fixed_rate / (s.frequency : ℚ) -
              s.notional * fl.getD i 0 / (s.frequency : ℚ))) /
          (1 + dr / (s.frequency : ℚ)) ^ (i + 1 + 2)) /
      (s.present_value fl dr * (s.frequency : ℚ) ^ 2) := by
  simp only [InterestRateSwap.convexity, InterestRateSwap.cashflows, List.map_map]
  rw [sum_map_range]
  rfl

lemma mortgage_schedFrom_conv_sum (m : Mortgage) (r : ℚ) :
    ∀ k t bal, ((m.schedFrom k t bal).map (fun row =>
        (row.period : ℚ) * ((row.period : ℚ) + 1) * row.payment /
          (1 + r) ^ (row.period + 2))).sum =
      ∑ i in Finset.range k,
        ((t + i : ℕ) : ℚ) * (((t + i : ℕ) : ℚ) + 1) * m.payment / (1 + r) ^ (t + i + 2) := by
  intro k
  induction k with
  | zero => intro t bal; simp [Mortgage.schedFrom]
  | succ k ih =>
    intro t bal
    simp only [Mortgage.schedFrom, List.map_cons, List.sum_cons]
    rw [ih (t + 1) (bal - (m.payment - bal * m.periodic_rate))]
    rw [Finset.sum_range_succ', add_comm]
    congr 1
    apply Finset.sum_congr rfl
    intro i _
    rw [show t + 1 + i = t + (i + 1) by omega]

/-- Mortgage convexity as an explicit indexed sum divided by `PV * freq²`. -/
lemma mortgage_convexity_eq (m : Mortgage) (dr : ℚ) :
    m.convexity dr =
      (∑ i in Finset.range m.n_periods,
        ((i + 1 : ℕ) : ℚ) * (((i + 1 : ℕ) : ℚ) + 1) * m.payment /
          (1 + dr / (m.frequency : ℚ)) ^ (i + 1 + 2)) /
      (m.present_value dr * (m.frequency : ℚ) ^ 2) := by
  simp only [Mortgage.convexity, Mortgage.cashflows]
  rw [mortgage_schedFrom_conv_sum m (dr / (m.frequency : ℚ)) m.n_periods 1 m.principal]
  congr 1
  apply Finset.sum_congr rfl
  intro i _
  rw [show 1 + i = i + 1 by omega]

lemma get?_eq_some_getD {l : List ℚ} :
    ∀ {i : ℕ}, i < l.length → l.get? i = some (l.getD i 0) := by
  induction l with
  | nil => intro i hi; simp at hi
  | cons x xs ih =>
    intro i hi
    cases i with
    | zero => rfl
    | succ j =>
      rw [List.getD_cons_succ]
      exact ih (by simpa using hi)

/-- The value of an in-bounds FIA schedule row, with the account value read
through `List.getD`. -/
def FIA.rowVal (f : FIA) (avs : List ℚ) (yr : ℕ) : FIARow :=
  let av := avs.getD yr 0
  let sp_start := survivalProb f.qx ((yr : ℚ) - 1)
  let sp_end := survivalProb f.qx (yr : ℚ)
  let dp := sp_start - sp_end
  let ed := av * dp
  let em := if yr = f.term then av * sp_end else 0
  { year := yr, account_value := av, survival_prob := sp_end, death_prob := dp,
    expected_death_benefit := ed, expected_maturity_benefit := em,
    net_cashflow := ed + em }

lemma fia_rowAt_eq (f : FIA) (avs : List ℚ) (yr : ℕ) (h : yr < avs.length) :
    f.rowAt avs yr = some (f.rowVal avs yr) := by
  unfold FIA.rowAt
  rw [get?_eq_some_getD h]
  rfl

lemma fia_cfRowsUpTo_eq (f : FIA) (avs : List ℚ) :
    ∀ k, (∀ yr, 1 ≤ yr → yr ≤ k → yr < avs.length) →
      f.cfRowsUpTo avs k = some ((List.range k).map (fun i => f.rowVal avs (i + 1))) := by
  intro k
  induction k with
  | zero => intro _; rfl
  | succ k ih =>
    intro h
    unfold FIA.cfRowsUpTo
    rw [ih (fun yr h1 h2 => h yr h1 (by omega)),
      fia_rowAt_eq f avs (k + 1) (h (k + 1) (by omega) le_rfl)]
    rw [List.range_succ, List.map_append]
    rfl

lemma fia_cashflows_eq (f : FIA) (ir : List ℚ) (h : f.term ≤ ir.length) :
    f.cashflows ir =
      some ((List.range f.term).map (fun i => f.rowVal (f.buildAccountValues ir) (i + 1))) := by
  unfold FIA.cashflows
  apply fia_cfRowsUpTo_eq
  intro yr h1 h2
  rw [fia_buildAccountValues_length]
  omega

/-- FIA PV as an explicit indexed sum over the account-value recursion. -/
lemma fia_present_value_eq (f : FIA) (ir : List ℚ) (dr : ℚ) (h : f.term ≤ ir.length) :
    f.present_value ir dr =
      some (∑ i in Finset.range f.term,
        ((f.buildAccountValues ir).getD (i + 1) 0 *
            (survivalProb f.qx (((i + 1 : ℕ) : ℚ) - 1) -
              survivalProb f.qx ((i + 1 : ℕ) : ℚ)) +
          if i + 1 = f.term
            then (f.buildAccountValues ir).getD (i + 1) 0 *
              survivalProb f.qx ((i + 1 : ℕ) : ℚ)
            else 0) / (1 + dr) ^ (i + 1)) := by
  unfold FIA.present_value
  rw [fia_cashflows_eq f ir h]
  rw [Option.map_some']
  congr 1
  rw [List.map_map, sum_map_range]
  rfl

/-- FIA convexity as an explicit indexed sum divided by the PV alone. -/
lemma fia_convexity_eq (f : FIA) (ir : List ℚ) (dr : ℚ) (h : f.term ≤ ir.length) :
    f.convexity ir dr =
      some ((∑ i in Finset.range f.term,
        ((i + 1 : ℕ) : ℚ) * (((i + 1 : ℕ) : ℚ) + 1) *
          ((f.buildAccountValues ir).getD (i + 1) 0 *
              (survivalProb f.qx (((i + 1 : ℕ) : ℚ) - 1) -
                survivalProb f.qx ((i + 1 : ℕ) : ℚ)) +
            if i + 1 = f.term
              then (f.buildAccountValues ir).getD (i + 1) 0 *
                survivalProb f.qx ((i + 1 : ℕ) : ℚ)
              else 0) / (1 + dr) ^ (i + 1 + 2)) /
        ∑ i in Finset.range f.term,
          ((f.buildAccountValues ir).getD (i + 1) 0 *
              (survivalProb f.qx (((i + 1 : ℕ) : ℚ) - 1) -
                survivalProb f.qx ((i + 1 : ℕ) : ℚ)) +
            if i + 1 = f.term
              then (f.buildAccountValues ir).getD (i + 1) 0 *
                survivalProb f.qx ((i + 1 : ℕ) : ℚ)
              else 0) / (1 + dr) ^ (i + 1)) := by
  unfold FIA.convexity
  rw [fia_cashflows_eq f ir h, fia_present_value_eq f ir dr h]
  dsimp only
  congr 2
  rw [List.map_map, sum_map_range]
  rfl

/-- C8: FIA convexity divides its indexed sum by the present value only
(no frequency-squared divisor), whereas Bond, Mortgage, PrivateCredit,
SPIA, WL, Term and InterestRateSwap all divide the analogous sum by
`PV * frequency²`. -/
theorem fia_convexity_divisor_spec
    (f : FIA) (ir : List ℚ) (dr : ℚ) (bd : Bond) (drb : ℚ) (pc : PrivateCredit)
    (dro : Option ℚ) (mg : Mortgage) (drm : ℚ) (sp : SPIA) (drs : ℚ) (wl : WL) (drw : ℚ)
    (tm : Term) (drt : ℚ) (sw : InterestRateSwap) (fl : List ℚ) (drsw : ℚ) :
    (f.term ≤ ir.length →
      f.present_value ir dr =
        some (∑ i in Finset.range f.term,
          ((f.buildAccountValues ir).getD (i + 1) 0 *
              (survivalProb f.qx (((i + 1 : ℕ) : ℚ) - 1) -
                survivalProb f.qx ((i + 1 : ℕ) : ℚ)) +
            if i + 1 = f.term
              then (f.buildAccountValues ir).getD (i + 1) 0 *
                survivalProb f.qx ((i + 1 : ℕ) : ℚ)
              else 0) / (1 + dr) ^ (i + 1)) ∧
      f.convexity ir dr =
        some ((∑ i in Finset.range f.term,
          ((i + 1 : ℕ) : ℚ) * (((i + 1 : ℕ) : ℚ) + 1) *
            ((f.buildAccountValues ir).getD (i + 1) 0 *
                (survivalProb f.qx (((i + 1 : ℕ) : ℚ) - 1) -
                  survivalProb f.qx ((i + 1 : ℕ) : ℚ)) +
              if i + 1 = f.term
                then (f.buildAccountValues ir).getD (i + 1) 0 *
                  survivalProb f.qx ((i + 1 : ℕ) : ℚ)
                else 0) / (1 + dr) ^ (i + 1 + 2)) /
          ∑ i in Finset.range f.term,
            ((f.buildAccountValues ir).getD (i + 1) 0 *
                (survivalProb f.qx (((i + 1 : ℕ) : ℚ) - 1) -
                  survivalProb f.qx ((i + 1 : ℕ) : ℚ)) +
              if i + 1 = f.term
                then (f.buildAccountValues ir).getD (i + 1) 0 *
                  survivalProb f.qx ((i + 1 : ℕ) : ℚ)
                else 0) / (1 + dr) ^ (i + 1))) ∧
    bd.convexity drb =
      (∑ i in Finset.range bd.n_periods,
        ((i + 1 : ℕ) : ℚ) * (((i + 1 : ℕ) : ℚ) + 1) *
          (bd.coupon + if i + 1 = bd.n_periods then bd.face_value else 0) /
          (1 + drb / (bd.frequency : ℚ)) ^ (i + 1 + 2)) /
      (bd.present_value drb * (bd.frequency : ℚ) ^ 2) ∧
    pc.convexity dro =
      (∑ i in Finset.range pc.n_periods,
        ((i + 1 : ℕ) : ℚ) * (((i + 1 : ℕ) : ℚ) + 1) *
          (pc.coupon + if i + 1 = pc.n_periods then pc.face_value else 0) /
          (1 + dro.getD pc.risk_free_rate / (pc.frequency : ℚ)) ^ (i + 1 + 2)) /
      (pc.present_value (some (dro.getD pc.risk_free_rate)) * (pc.frequency : ℚ) ^ 2) ∧
    mg.convexity drm =
      (∑ i in Finset.range mg.n_periods,
        ((i + 1 : ℕ) : ℚ) * (((i + 1 : ℕ) : ℚ) + 1) * mg.payment /
          (1 + drm / (mg.frequency : ℚ)) ^ (i + 1 + 2)) /
      (mg.present_value drm * (mg.frequency : ℚ) ^ 2) ∧
    sp.convexity drs =
      (∑ i in Finset.range (sp.qx.length * sp.frequency),
        ((i + 1 : ℕ) : ℚ) * (((i + 1 : ℕ) : ℚ) + 1) *
          (if ((i + 1 : ℕ) : ℚ) / (sp.frequency : ℚ) ≤ (sp.certain_period : ℚ)
            then sp.annual_payout / (sp.frequency : ℚ)
            else sp.annual_payout / (sp.frequency : ℚ) *
              survivalProb sp.qx (((i + 1 : ℕ) : ℚ) / (sp.frequency : ℚ))) /
          (1 + drs / (sp.frequency : ℚ)) ^ (i + 1 + 2)) /
      (sp.present_value drs * (sp.frequency : ℚ) ^ 2) ∧
    wl.convexity drw =
      (∑ i in Finset.range (wl.qx.length * wl.frequency),
        ((i + 1 : ℕ) : ℚ) * (((i + 1 : ℕ) : ℚ) + 1) *
          (wl.face_value *
              (survivalProb wl.qx ((((i + 1 : ℕ) : ℚ) - 1) / (wl.frequency : ℚ)) -
                survivalProb wl.qx (((i + 1 : ℕ) : ℚ) / (wl.frequency : ℚ))) -
            wl.annual_premium / (wl.frequency : ℚ) *
              survivalProb wl.qx ((((i + 1 : ℕ) : ℚ) - 1) / (wl.frequency : ℚ))) /
          (1 + drw / (wl.frequency : ℚ)) ^ (i + 1 + 2)) /
      (wl.present_value drw * (wl.frequency : ℚ) ^ 2) ∧
    tm.convexity drt =
      (∑ i in Finset.range (tm.term * tm.frequency),
        ((i + 1 : ℕ) : ℚ) * (((i + 1 : ℕ) : ℚ) + 1) *
          (tm.face_value *
              (survivalProb tm.qx ((((i + 1 : ℕ) : ℚ) - 1) / (tm.frequency : ℚ)) -
                survivalProb tm.qx (((i + 1 : ℕ) : ℚ) / (tm.frequency : ℚ))) -
            tm.annual_premium / (tm.frequency : ℚ) *
              survivalProb tm.qx ((((i + 1 : ℕ) : ℚ) - 1) / (tm.frequency : ℚ))) /
          (1 + drt / (tm.frequency : ℚ)) ^ (i + 1 + 2)) /
      (tm.present_value drt * (tm.frequency : ℚ) ^ 2) ∧
    sw.convexity fl drsw =
      (∑ i in Finset.range sw.n_periods,
        ((i + 1 : ℕ) : ℚ) * (((i + 1 : ℕ) : ℚ) + 1) *
          ((if sw.pay_fixed then (-1 : ℚ) else 1) *
            (sw.notional * sw.fixed_rate / (sw.frequency : ℚ) -
              sw.notional * fl.getD i 0 / (sw.frequency : ℚ))) /
          (1 + drsw / (sw.frequency : ℚ)) ^ (i + 1 + 2)) /
      (sw.present_value fl drsw * (sw.frequency : ℚ) ^ 2) :=
  ⟨fun h => ⟨fia_present_value_eq f ir dr h, fia_convexity_eq f ir dr h⟩,
    bond_convexity_eq bd drb, private_credit_convexity_eq pc dro,
    mortgage_convexity_eq mg drm, spia_convexity_eq sp drs, wl_convexity_eq wl drw,
    term_convexity_eq tm drt, swap_convexity_eq sw fl drsw⟩

/-- Concrete instantiation of `fia_convexity_divisor_spec`: a 1-year FIA
with premium 100, one index rate, zero discount rate has convexity exactly
2 (the sum divided by the PV alone). -/
theorem fia_convexity_divisor_spec_witness :
    ({ premium := 100, term := 1, qx := [1/10] } : FIA).convexity [1/20] 0 = some 2 := by
  have h := (fia_convexity_divisor_spec { premium := 100, term := 1, qx := [1/10] } [1/20] 0
      (Bond.mk 100 (1/20) 1 2 none 0) 0 (PrivateCredit.mk 100 1 (1/25) 0 0 0 2 none) none
      (Mortgage.mk 100 (1/10) 1 12) 0 (SPIA.mk 0 6 [1/10] 12 0 none) 0
      (WL.mk 100 1 [1/10] 12 none) 0 (Term.mk 100 1 1 [1/10] 12 none) 0
      (InterestRateSwap.mk 100 (1/25) 1 2 true) [] 0).1 (by norm_num)
  rw [h.2]
  norm_num [FIA.buildAccountValues, FIA.credited_rate, survivalProb, List.scanl,
    Finset.sum_range_one, List.range_succ, List.range_zero, Int.floor_zero, Int.floor_one]

/-!
Block of business (`src/alm/core.py`).

Embedding notes: the asset universe is the tagged union of the three asset
instruments.  `SAA.weights` is a dict keyed by the four asset-class names
used everywhere in the source; it is modelled as a record with those four
weights.  The mortality table, age range and seeded RNG exist only inside
`generate_policies`, which is not modelled: the claims below quantify over
an already-generated policy list.  `get_spread` reads a CSV curve file (an
external collaborator per the spec) and is passed in as a function
parameter.  The values accumulated by Python `for` loops are modelled as
list sums; rational addition is commutative and associative, so the
accumulation order is immaterial.
-/

structure SAA where
  govt_bonds : ℚ
  corp_bonds : ℚ
  mortgages : ℚ
  private_credit : ℚ

structure ClassAmounts where
  govt_bonds : ℚ
  corp_bonds : ℚ
  mortgages : ℚ
  private_credit : ℚ

/-- Dollar amounts per asset class, from `SAA.allocation`. -/
def SAA.allocation (s : SAA) (total_amount : ℚ) : ClassAmounts :=
  { govt_bonds := s.govt_bonds * total_amount, corp_bonds := s.corp_bonds * total_amount,
    mortgages := s.mortgages * total_amount, private_credit := s.private_credit * total_amount }

/-- Government-bond rating split, from `GOVT_RATING_DIST`. -/
def GOVT_RATING_DIST : List (String × ℚ) := [("AAA", 7/10), ("AA", 3/10)]

/-- Corporate-bond rating split, from `CORP_RATING_DIST`. -/
def CORP_RATING_DIST : List (String × ℚ) := [("A", 3/10), ("BBB", 1/2), ("BB", 3/20), ("B", 1/20)]

/-- Private-credit rating split, from `PC_RATING_DIST`. -/
def PC_RATING_DIST : List (String × ℚ) := [("BB", 2/5), ("B", 3/5)]

inductive AssetInstr where
  | bond : Bond → AssetInstr
  | mortgage : Mortgage → AssetInstr
  | privateCredit : PrivateCredit → AssetInstr

inductive Policy where
  | spia : SPIA → Policy
  | wl : WL → Policy
  | term : Term → Policy
  | fia : FIA → Policy

structure Block where
  liability_type : String
  saa : SAA
  total_liability_amount : ℚ
  discount_rate : ℚ
  n_policies : ℕ := 500
  gender_split : ℚ := 1/2
  index_rates : List ℚ := []
  premium : Option ℚ := none
  profit_margin : ℚ := 1/20
  policies : List Policy := []
  assets : List AssetInstr := []

/-- Liability-side PV of one policy inside `Block.calculate_premium`
(the per-`isinstance` branches of the source loop); `none` when a FIA
schedule is undefined. -/
def Block.policyBenefitPV (b : Block) : Policy → Option ℚ
  | .spia p =>
    let r := b.discount_rate / (p.frequency : ℚ)
    some ((p.cashflows.map (fun row => row.expected_payout / (1 + r) ^ row.period)).sum)
  | .fia p =>
    (p.cashflows b.index_rates).map (fun rows =>
      (rows.map (fun row => row.net_cashflow / (1 + b.discount_rate) ^ row.year)).sum)
  | .wl p =>
    let r := b.discount_rate / (p.frequency : ℚ)
    some ((p.cashflows.map (fun row => row.expected_benefit / (1 + r) ^ row.period)).sum)
  | .term p =>
    let r := b.discount_rate / (p.frequency : ℚ)
    some ((p.cashflows.map (fun row => row.expected_benefit / (1 + r) ^ row.period)).sum)

/-- The `pv_benefits` accumulation loop of `Block.calculate_premium`. -/
def Block.sumBenefitPVs (b : Block) : List Policy → Option ℚ
  | [] => some 0
  | p :: rest =>
    match b.policyBenefitPV p, b.sumBenefitPVs rest with
    | some v, some s => some (v + s)
    | _, _ => none

/-- Total investable premium, from `Block.calculate_premium`: multiplies
the summed liability PVs by `(1 + profit_margin)`, stores the result in
the `premium` field and returns it. -/
def Block.calculatePremium (b : Block) : Option (Block × ℚ) :=
  (b.sumBenefitPVs b.policies).map (fun pv_benefits =>
    let prem := pv_benefits * (1 + b.profit_margin)
    ({ b with premium := some prem }, prem))

/-- Spec-side description of the liability-side PV summed by
`calculate_premium`: for SPIA the expected-payout stream at
`discount_rate/frequency` per period (its `present_value`), for FIA the
net-cashflow stream discounted annually (its `present_value`), and for
WL/Term the expected-benefit column only — premiums collected from
policyholders contribute nothing. -/
def specLiabilitySidePV (b : Block) : Policy → ℚ
  | .spia p => p.present_value b.discount_rate
  | .fia p => (p.present_value b.index_rates b.discount_rate).getD 0
  | .wl p =>
    ∑ i in Finset.range (p.qx.length * p.frequency),
      p.face_value *
        (survivalProb p.qx ((((i + 1 : ℕ) : ℚ) - 1) / (p.frequency : ℚ)) -
          survivalProb p.qx (((i + 1 : ℕ) : ℚ) / (p.frequency : ℚ))) /
        (1 + b.discount_rate / (p.frequency : ℚ)) ^ (i + 1)
  | .term p =>
    ∑ i in Finset.range (p.term * p.frequency),
      p.face_value *
        (survivalProb p.qx ((((i + 1 : ℕ) : ℚ) - 1) / (p.frequency : ℚ)) -
          survivalProb p.qx (((i + 1 : ℕ) : ℚ) / (p.frequency : ℚ))) /
        (1 + b.discount_rate / (p.frequency : ℚ)) ^ (i + 1)

lemma block_policyBenefitPV_eq (b : Block) (pol : Policy)
    (hfia : ∀ p, pol = Policy.fia p → p.term ≤ b.index_rates.length) :
    b.policyBenefitPV pol = some (specLiabilitySidePV b pol) := by
  cases pol with
  | spia p => rfl
  | fia p =>
    have hp : p.term ≤ b.index_rates.length := hfia p rfl
    have hpv : b.policyBenefitPV (Policy.fia p) =
        p.present_value b.index_rates b.discount_rate := rfl
    rw [hpv, fia_present_value_eq p b.index_rates b.discount_rate hp]
    simp only [specLiabilitySidePV, fia_present_value_eq p b.index_rates b.discount_rate hp,
      Option.getD_some]
  | wl p =>
    simp only [Block.policyBenefitPV, specLiabilitySidePV]
    congr 1
    simp only [WL.cashflows, lifeRow, List.map_map]
    rw [sum_map_range]
    rfl
  | term p =>
    simp only [Block.policyBenefitPV, specLiabilitySidePV]
    congr 1
    simp only [Term.cashflows, lifeRow, List.map_map]
    rw [sum_map_range]
    rfl

lemma block_sumBenefitPVs_eq (b : Block) :
    ∀ ps : List Policy, (∀ p, Policy.fia p ∈ ps → p.term ≤ b.index_rates.length) →
      b.sumBenefitPVs ps = some ((ps.map (specLiabilitySidePV b)).sum) := by
  intro ps
  induction ps with
  | nil => intro _; rfl
  | cons pol rest ih =>
    intro h
    have hpol : b.policyBenefitPV pol = some (specLiabilitySidePV b pol) := by
      apply block_policyBenefitPV_eq
      intro p hp
      exact h p (by rw [← hp]; exact List.mem_cons_self pol rest)
    have hrest : b.sumBenefitPVs rest = some ((rest.map (specLiabilitySidePV b)).sum) :=
      ih (fun p hp => h p (List.mem_cons_of_mem pol hp))
    simp only [Block.sumBenefitPVs, hpol, hrest, List.map_cons, List.sum_cons]

/-- C3: with generated policies (and defined FIA schedules),
`calculate_premium` returns the sum over policies of the liability-side
present value — SPIA expected payouts, FIA net cashflows, WL/Term expected
benefits only — times `(1 + profit_margin)`, and stores it in the
`premium` field. -/
theorem block_calculate_premium_spec (b : Block)
    (_hpol : b.policies ≠ [])
    (hfia : ∀ p, Policy.fia p ∈ b.policies → p.term ≤ b.index_rates.length) :
    ∃ total,
      b.calculatePremium = some ({ b with premium := some total }, total) ∧
      total = ((b.policies.map (specLiabilitySidePV b)).sum) * (1 + b.profit_margin) := by
  refine ⟨((b.policies.map (specLiabilitySidePV b)).sum) * (1 + b.profit_margin), ?_, rfl⟩
  unfold Block.calculatePremium
  rw [block_sumBenefitPVs_eq b b.policies hfia]
  rfl

/-- Concrete single-SPIA block used to instantiate the premium and
reinvestment theorems. -/
def exampleBlockC3 : Block :=
  { liability_type := "SPIA", saa := ⟨2/5, 3/10, 1/5, 1/10⟩,
    total_liability_amount := 100, discount_rate := 0,
    policies := [Policy.spia (SPIA.mk 0 6 [1/10] 1 0 none)] }

/-- Concrete instantiation of `block_calculate_premium_spec`. -/
theorem block_calculate_premium_spec_witness :
    ∃ total,
      exampleBlockC3.calculatePremium =
        some ({ exampleBlockC3 with premium := some total }, total) ∧
      total = ((exampleBlockC3.policies.map (specLiabilitySidePV exampleBlockC3)).sum) *
        (1 + exampleBlockC3.profit_margin) :=
  block_calculate_premium_spec exampleBlockC3 (by simp [exampleBlockC3])
    (by intro p hp; simp [exampleBlockC3] at hp)

/-- Face value credited as proceeds when an asset matures strictly before
`year` (loop body of `Block.reinvest`); mortgages never mature here. -/
def AssetInstr.maturedFaceValue (year : ℕ) : AssetInstr → ℚ
  | .bond bd => if bd.maturity < year then bd.face_value else 0
  | .privateCredit p => if p.maturity < year then p.face_value else 0
  | .mortgage _ => 0

/-- Whether `Block.reinvest` keeps a position in `remaining`. -/
def AssetInstr.keptAt (year : ℕ) : AssetInstr → Bool
  | .bond bd => ! decide (bd.maturity < year)
  | .privateCredit p => ! decide (p.maturity < year)
  | .mortgage _ => true

/-- Summed face value of matured bond and private-credit positions, from
the first loop of `Block.reinvest`. -/
def Block.maturedProceeds (b : Block) (year : ℕ) : ℚ :=
  (b.assets.map (AssetInstr.maturedFaceValue year)).sum

/-- Face value (bonds, private credit) or principal (mortgages) of a
position. -/
def AssetInstr.faceAmount : AssetInstr → ℚ
  | .bond bd => bd.face_value
  | .privateCredit p => p.face_value
  | .mortgage m => m.principal

/-- New positions purchased by `Block.reinvest` from positive proceeds:
5-year bonds per `GOVT_RATING_DIST`/`CORP_RATING_DIST`, a single 15-year
mortgage, and 5-year private credit per `PC_RATING_DIST`, each class
funded by its SAA allocation of the proceeds. -/
def Block.reinvestNewAssets (get_spread : String → ℕ → ℚ) (b : Block)
    (proceeds : ℚ) : List AssetInstr :=
  let alloc := b.saa.allocation proceeds
  (if 0 < alloc.govt_bonds then
    GOVT_RATING_DIST.map (fun rq =>
      AssetInstr.bond
        { face_value := alloc.govt_bonds * rq.2,
          coupon_rate := b.discount_rate + get_spread rq.1 5, maturity := 5,
          rating := some rq.1, credit_spread := get_spread rq.1 5 })
  else []) ++
  (if 0 < alloc.corp_bonds then
    CORP_RATING_DIST.map (fun rq =>
      AssetInstr.bond
        { face_value := alloc.corp_bonds * rq.2,
          coupon_rate := b.discount_rate + get_spread rq.1 5, maturity := 5,
          rating := some rq.1, credit_spread := get_spread rq.1 5 })
  else []) ++
  (if 0 < alloc.mortgages then
    [AssetInstr.mortgage
      { principal := alloc.mortgages,
        annual_rate := b.discount_rate + get_spread "A" 15, term := 15 }]
  else []) ++
  (if 0 < alloc.private_credit then
    PC_RATING_DIST.map (fun rq =>
      AssetInstr.privateCredit
        { face_value := alloc.private_credit * rq.2, maturity := 5,
          risk_free_rate := b.discount_rate, credit_spread := get_spread rq.1 5,
          illiquidity_spread := 1/50, other_spread := 1/200, rating := some rq.1 })
  else [])

/-- Reinvest proceeds of matured bonds at `year` per SAA weights, from
`Block.reinvest`: returns the new positions and the mutated block. -/
def Block.reinvest (get_spread : String → ℕ → ℚ) (b : Block) (year : ℕ) :
    List AssetInstr × Block :=
  let matured_proceeds := b.maturedProceeds year
  let remaining := b.assets.filter (AssetInstr.keptAt year)
  if matured_proceeds ≤ 0 then ([], b)
  else
    let new_assets := b.reinvestNewAssets get_spread matured_proceeds
    (new_assets, { b with assets := remaining ++ new_assets })

/-- Zero credit-spread curve used for concrete instantiations. -/
def spreadZero : String → ℕ → ℚ := fun _ _ => 0

/-- Concrete block for the reinvestment counterexample: default SAA
weights, one 1-year bond of face 100. -/
def exampleBlockC4 : Block :=
  { liability_type := "SPIA", saa := ⟨2/5, 3/10, 1/5, 1/10⟩,
    total_liability_amount := 100, discount_rate := 1/25,
    assets := [AssetInstr.bond { face_value := 100, coupon_rate := 1/20, maturity := 1 }] }

/-- C4 counterexample: reinvesting the matured proceeds of
`exampleBlockC4` at year 2 purchases (position index 6) a 15-year
mortgage, so not every newly purchased replacement position is a 5-year
instrument. -/
theorem block_reinvest_counterexample :
    (Block.reinvest spreadZero exampleBlockC4 2).1.get? 6 =
      some (AssetInstr.mortgage { principal := 20, annual_rate := 1/25, term := 15 }) ∧
    (15 : ℕ) ≠ 5 := by
  constructor
  · norm_num [Block.reinvest, Block.reinvestNewAssets, Block.maturedProceeds, exampleBlockC4,
      spreadZero, SAA.allocation, AssetInstr.maturedFaceValue, GOVT_RATING_DIST,
      CORP_RATING_DIST, PC_RATING_DIST, List.get?]
  · decide

lemma reinvestNewAssets_face_sum (g : String → ℕ → ℚ) (b : Block) (P : ℚ) (hP : 0 < P)
    (hw : b.saa.govt_bonds + b.saa.corp_bonds + b.saa.mortgages + b.saa.private_credit = 1)
    (hg : 0 ≤ b.saa.govt_bonds) (hc : 0 ≤ b.saa.corp_bonds)
    (hm : 0 ≤ b.saa.mortgages) (hpc : 0 ≤ b.saa.private_credit) :
    ((b.reinvestNewAssets g P).map AssetInstr.faceAmount).sum = P := by
  have hsum : b.saa.govt_bonds * P + b.saa.corp_bonds * P + b.saa.mortgages * P +
      b.saa.private_credit * P = P := by linear_combination P * hw
  have n1 := mul_nonneg hg hP.le
  have n2 := mul_nonneg hc hP.le
  have n3 := mul_nonneg hm hP.le
  have n4 := mul_nonneg hpc hP.le
  simp only [Block.reinvestNewAssets, SAA.allocation, List.map_append, List.sum_append,
    apply_ite (List.map AssetInstr.faceAmount), apply_ite List.sum, List.map_map,
    List.map_nil, List.sum_nil, GOVT_RATING_DIST, CORP_RATING_DIST, PC_RATING_DIST,
    List.map_cons, List.sum_cons, Function.comp_def, AssetInstr.faceAmount]
  split_ifs <;> linarith [hsum, n1, n2, n3, n4]

lemma mem_ite_list {a : AssetInstr} {c : Prop} [Decidable c] {l : List AssetInstr}
    (h : a ∈ (if c then l else [])) : a ∈ l := by
  split_ifs at h
  · exact h
  · exact absurd h (List.not_mem_nil a)

lemma reinvestNewAssets_tenors (g : String → ℕ → ℚ) (b : Block) (P : ℚ) :
    ∀ a ∈ b.reinvestNewAssets g P,
      (∀ bd, a = AssetInstr.bond bd → bd.maturity = 5) ∧
      (∀ p, a = AssetInstr.privateCredit p → p.maturity = 5) ∧
      (∀ m, a = AssetInstr.mortgage m → m.term = 15) := by
  intro a ha
  simp only [Block.reinvestNewAssets, SAA.allocation, List.mem_append] at ha
  rcases ha with ((hg | hcp) | hmt) | hpcr
  · obtain ⟨rq, -, rfl⟩ := List.mem_map.mp (mem_ite_list hg)
    refine ⟨?_, ?_, ?_⟩
    · intro bd hbd
      injection hbd with h2
      rw [← h2]
    · intro p hp
      exact absurd hp (by simp)
    · intro m hm2
      exact absurd hm2 (by simp)
  · obtain ⟨rq, -, rfl⟩ := List.mem_map.mp (mem_ite_list hcp)
    refine ⟨?_, ?_, ?_⟩
    · intro bd hbd
      injection hbd with h2
      rw [← h2]
    · intro p hp
      exact absurd hp (by simp)
    · intro m hm2
      exact absurd hm2 (by simp)
  · have h2 := mem_ite_list hmt
    rw [List.mem_singleton] at h2
    subst h2
    refine ⟨?_, ?_, ?_⟩
    · intro bd hbd
      exact absurd hbd (by simp)
    · intro p hp
      exact absurd hp (by simp)
    · intro m hm2
      injection hm2 with h3
      rw [← h3]
  · obtain ⟨rq, -, rfl⟩ := List.mem_map.mp (mem_ite_list hpcr)
    refine ⟨?_, ?_, ?_⟩
    · intro bd hbd
      exact absurd hbd (by simp)
    · intro p hp
      injection hp with h2
      rw [← h2]
    · intro m hm2
      exact absurd hm2 (by simp)

/-- C4 (amended): `reinvest` removes exactly the bond/private-credit
positions with maturity strictly below `year` (mortgages never), returns
`([], b)` unchanged when the matured face-value sum is not positive, and
otherwise appends and returns new positions funded exactly by the
proceeds, allocated across SAA weights and per-class rating
distributions — the bond and private-credit replacements being 5-year
instruments and the mortgage replacement a single 15-year mortgage. -/
theorem block_reinvest_spec (g : String → ℕ → ℚ) (b : Block) (year : ℕ)
    (hw : b.saa.govt_bonds + b.saa.corp_bonds + b.saa.mortgages + b.saa.private_credit = 1)
    (hg : 0 ≤ b.saa.govt_bonds) (hc : 0 ≤ b.saa.corp_bonds)
    (hm : 0 ≤ b.saa.mortgages) (hpc : 0 ≤ b.saa.private_credit) :
    (b.maturedProceeds year ≤ 0 → Block.reinvest g b year = ([], b)) ∧
    (0 < b.maturedProceeds year →
      Block.reinvest g b year =
        (b.reinvestNewAssets g (b.maturedProceeds year),
          { b with assets := b.assets.filter (AssetInstr.keptAt year) ++
              b.reinvestNewAssets g (b.maturedProceeds year) }) ∧
      ((b.reinvestNewAssets g (b.maturedProceeds year)).map AssetInstr.faceAmount).sum =
        b.maturedProceeds year ∧
      (∀ a ∈ b.reinvestNewAssets g (b.maturedProceeds year),
        (∀ bd, a = AssetInstr.bond bd → bd.maturity = 5) ∧
        (∀ p, a = AssetInstr.privateCredit p → p.maturity = 5) ∧
        (∀ m, a = AssetInstr.mortgage m → m.term = 15)) ∧
      (0 < b.saa.govt_bonds * b.maturedProceeds year →
        ∀ rq ∈ GOVT_RATING_DIST,
          AssetInstr.bond
            { face_value := b.saa.govt_bonds * b.maturedProceeds year * rq.2,
              coupon_rate := b.discount_rate + g rq.1 5, maturity := 5,
              rating := some rq.1, credit_spread := g rq.1 5 } ∈
            b.reinvestNewAssets g (b.maturedProceeds year)) ∧
      (0 < b.saa.corp_bonds * b.maturedProceeds year →
        ∀ rq ∈ CORP_RATING_DIST,
          AssetInstr.bond
            { face_value := b.saa.corp_bonds * b.maturedProceeds year * rq.2,
              coupon_rate := b.discount_rate + g rq.1 5, maturity := 5,
              rating := some rq.1, credit_spread := g rq.1 5 } ∈
            b.reinvestNewAssets g (b.maturedProceeds year)) ∧
      (0 < b.saa.mortgages * b.maturedProceeds year →
        AssetInstr.mortgage
          { principal := b.saa.mortgages * b.maturedProceeds year,
            annual_rate := b.discount_rate + g "A" 15, term := 15 } ∈
          b.reinvestNewAssets g (b.maturedProceeds year)) ∧
      (0 < b.saa.private_credit * b.maturedProceeds year →
        ∀ rq ∈ PC_RATING_DIST,
          AssetInstr.privateCredit
            { face_value := b.saa.private_credit * b.maturedProceeds year * rq.2,
              maturity := 5, risk_free_rate := b.discount_rate,
              credit_spread := g rq.1 5, illiquidity_spread := 1/50,
              other_spread := 1/200, rating := some rq.1 } ∈
            b.reinvestNewAssets g (b.maturedProceeds year))) := by
  constructor
  · intro h
    simp only [Block.reinvest]
    rw [if_pos h]
  · intro h
    refine ⟨?_, reinvestNewAssets_face_sum g b (b.maturedProceeds year) h hw hg hc hm hpc,
      reinvestNewAssets_tenors g b (b.maturedProceeds year), ?_, ?_, ?_, ?_⟩
    · simp only [Block.reinvest]
      rw [if_neg (not_le.mpr h)]
    · intro hpos rq hrq
      simp only [Block.reinvestNewAssets, SAA.allocation, List.mem_append]
      refine Or.inl (Or.inl (Or.inl ?_))
      rw [if_pos hpos]
      exact List.mem_map.mpr ⟨rq, hrq, rfl⟩
    · intro hpos rq hrq
      simp only [Block.reinvestNewAssets, SAA.allocation, List.mem_append]
      refine Or.inl (Or.inl (Or.inr ?_))
      rw [if_pos hpos]
      exact List.mem_map.mpr ⟨rq, hrq, rfl⟩
    · intro hpos
      simp only [Block.reinvestNewAssets, SAA.allocation, List.mem_append]
      refine Or.inl (Or.inr ?_)
      rw [if_pos hpos]
      exact List.mem_singleton.mpr rfl
    · intro hpos rq hrq
      simp only [Block.reinvestNewAssets, SAA.allocation, List.mem_append]
      refine Or.inr ?_
      rw [if_pos hpos]
      exact List.mem_map.mpr ⟨rq, hrq, rfl⟩

/-- Concrete instantiation of `block_reinvest_spec` on `exampleBlockC4`:
at year 1 nothing has matured and the block is unchanged; at year 2 the
new positions' face values sum exactly to the matured proceeds. -/
theorem block_reinvest_spec_witness :
    exampleBlockC4.maturedProceeds 1 ≤ 0 ∧
    Block.reinvest spreadZero exampleBlockC4 1 = ([], exampleBlockC4) ∧
    0 < exampleBlockC4.maturedProceeds 2 ∧
    ((exampleBlockC4.reinvestNewAssets spreadZero
        (exampleBlockC4.maturedProceeds 2)).map AssetInstr.faceAmount).sum =
      exampleBlockC4.maturedProceeds 2 := by
  have hp1 : exampleBlockC4.maturedProceeds 1 ≤ 0 := by
    norm_num [Block.maturedProceeds, exampleBlockC4, AssetInstr.maturedFaceValue]
  have hp2 : 0 < exampleBlockC4.maturedProceeds 2 := by
    norm_num [Block.maturedProceeds, exampleBlockC4, AssetInstr.maturedFaceValue]
  have h1 := block_reinvest_spec spreadZero exampleBlockC4 1 (by norm_num [exampleBlockC4])
    (by norm_num [exampleBlockC4]) (by norm_num [exampleBlockC4])
    (by norm_num [exampleBlockC4]) (by norm_num [exampleBlockC4])
  have h2 := block_reinvest_spec spreadZero exampleBlockC4 2 (by norm_num [exampleBlockC4])
    (by norm_num [exampleBlockC4]) (by norm_num [exampleBlockC4])
    (by norm_num [exampleBlockC4]) (by norm_num [exampleBlockC4])
  exact ⟨hp1, h1.1 hp1, hp2, (h2.2 hp2).2.1⟩
